import Mathlib

/-!
# JuGDS: the C export layer of `src/deps/JCoreArray.cpp`

A shallow embedding of the container registry, the object registry, the
read pipeline `GDS_JArray_Read` and `GDS_Array_GetDim`, followed by the properties
proved about them.

Conventions of the embedding

* C `int`, `C_Int32` and enum values are `Int`; narrowing conversions are made
  explicit with `toInt32`.
* A pointer that may be `NULL` is an `Option`.
* A `for (i = 0; i < n; i++)` loop is `forLoop n body init`.
* A function that can throw returns `Except Err _`.
* A store outside a `std::vector` is undefined behaviour; a run that makes one carries the
  flag `undefinedBehaviour`.
* The storage engine (CoreArray) and the Julia runtime are outside
  `src/`; what they answer is carried by the fields of the objects below.
-/

namespace JuGDS

/-! ## Machine integers and loops -/

/-- Conversion of an integer value to a 32-bit signed `int` (two's complement wrap). -/
def toInt32 (x : Int) : Int := (x + 2147483648) % 4294967296 - 2147483648

/-- Run `body 0`, `body 1`, ..., `body (n-1)` in this order on a state:
the loop `for (i = 0; i < n; i++) body`. -/
def forLoop {σ : Type} (n : Nat) (body : Nat → σ → σ) (init : σ) : σ :=
  (List.range n).foldl (fun s i => body i s) init

/-! ## Errors -/

/-- The exceptions of the storage engine, as far as this file tells them apart:
`ErrAllocRead` and `EZLibError` are the two that `GDS_JArray_Read` catches,
`stdException` is any other exception derived from `std::exception` (with its `what()`
text), `cstr` is a thrown `const char*`, and `other` is anything else. -/
inductive EngineErr where
  | ErrAllocRead (msg : String)
  | EZLibError (msg : String)
  | stdException (msg : String)
  | cstr (msg : String)
  | other
  deriving DecidableEq, Repr

/-- The exceptions that cross the boundary: `ErrGDSFmt` and `ErrCoreArray` raised by this
file with the given message, or an exception of the engine that this file lets through. -/
inductive Err where
  | ErrGDSFmt (msg : String)
  | ErrCoreArray (msg : String)
  | engine (e : EngineErr)
  deriving DecidableEq, Repr

/-! ## Semantic types -/

/-! The values of the enum `C_SVType` are represented by `Int`; the numbering is the index
order of the table `sv2dt`. -/

def svCustom : Int := 0
def svCustomInt : Int := 1
def svCustomUInt : Int := 2
def svCustomFloat : Int := 3
def svCustomStr : Int := 4
def svInt8 : Int := 5
def svUInt8 : Int := 6
def svInt16 : Int := 7
def svUInt16 : Int := 8
def svInt32 : Int := 9
def svUInt32 : Int := 10
def svInt64 : Int := 11
def svUInt64 : Int := 12
def svFloat32 : Int := 13
def svFloat64 : Int := 14
def svStrUTF8 : Int := 15
def svStrUTF16 : Int := 16

/-- The Julia element types that the reader hands to the array allocator. -/
inductive jl_datatype_t where
  | jl_bool_type
  | jl_int8_type
  | jl_uint8_type
  | jl_int16_type
  | jl_uint16_type
  | jl_int32_type
  | jl_uint32_type
  | jl_int64_type
  | jl_uint64_type
  | jl_float32_type
  | jl_float64_type
  | jl_string_type
  deriving DecidableEq, Repr

open jl_datatype_t

/-- The static table `sv2dt` of `GDS_JArray_Read`; `none` is a `NULL` entry. -/
def sv2dt : List (Option jl_datatype_t) :=
  [ none,                  -- svCustom
    none,                  -- svCustomInt
    none,                  -- svCustomUInt
    none,                  -- svCustomFloat
    none,                  -- svCustomStr
    some jl_int8_type,     -- svInt8
    some jl_uint8_type,    -- svUInt8
    some jl_int16_type,    -- svInt16
    some jl_uint16_type,   -- svUInt16
    some jl_int32_type,    -- svInt32
    some jl_uint32_type,   -- svUInt32
    some jl_int64_type,    -- svInt64
    some jl_uint64_type,   -- svUInt64
    some jl_float32_type,  -- svFloat32
    some jl_float64_type,  -- svFloat64
    some jl_string_type,   -- svStrUTF8
    some jl_string_type ]  -- svStrUTF16

/-- The guarded lookup
`if ((0 <= SV) && (SV < sizeof(sv2dt)/sizeof(jl_datatype_t*))) dat_type = sv2dt[SV];`
starting from `dat_type = NULL`. -/
def sv2dtLookup (SV : Int) : Option jl_datatype_t :=
  if 0 ≤ SV ∧ SV < (sv2dt.length : Int) then (sv2dt.getD SV.toNat none) else none

/-! ## Attribute values -/

/-- What the reader observes of an attribute value `CdAny`: whether it is a string
(`IsString`), whether it is an array (`IsArray`), its text `GetStr8()`, and, for an array,
the texts `GetStr8()` of its `GetArrayLength()` elements in order. -/
structure CdAny where
  IsString : Bool
  IsArray : Bool
  GetStr8 : String
  GetArray : List String
  deriving DecidableEq, Repr

/-- Embeds `GetArrayLength()` of an attribute value. -/
def CdAny.GetArrayLength (a : CdAny) : Nat := a.GetArray.length

/-- The attribute list of an object: names with their values. -/
abbrev CdObjAttr := List (String × CdAny)

/-- Embeds `Attribute().HasName(name)`. -/
def CdObjAttr.HasName (attrs : CdObjAttr) (name : String) : Bool :=
  attrs.any (fun kv => kv.1 == name)

/-- Embeds `Attribute()[name]`: the value stored under `name` (`none` when there is no such name,
where the engine raises). -/
def CdObjAttr.get (attrs : CdObjAttr) (name : String) : Option CdAny :=
  (attrs.find? (fun kv => kv.1 == name)).map (fun kv => kv.2)

/-! ## Julia values and arrays -/

/-- A value of the host runtime held in an array cell: a string object or the bits of a
number. -/
inductive jl_value_t where
  | jl_string (s : String)
  | bits (v : Int)
  deriving DecidableEq, Repr

open jl_value_t

/-- An allocated host array: its element type, its extents along the output dimensions
`0, 1, ...`, and its cells in storage order. A cell that was never written is `none`. -/
structure jl_array_t where
  eltype : jl_datatype_t
  dims : List Nat
  data : List (Option jl_value_t)
  deriving DecidableEq, Repr

/-- Embeds `jl_array_len`: the number of cells. -/
def jl_array_len (a : jl_array_t) : Nat := a.data.length

/-- Conversion of a `C_Int32` argument to the `size_t` parameter of the allocators. -/
def toSizeT (x : Int) : Nat := (x % 18446744073709551616).toNat

/-- Modelled from the spec: the allocators `jl_alloc_array_1d/2d/3d` of the host runtime
("allocate an N-dimensional typed array"); they are not under `src/`. The array has the
requested extents and as many cells as their product, none of them written yet. -/
def jl_alloc_array (dat_type : jl_datatype_t) (dims : List Nat) : jl_array_t :=
  { eltype := dat_type, dims := dims, data := List.replicate dims.prod none }

/-- A bulk read of the engine into a buffer: the engine stores the elements it delivers
from the start of the buffer. -/
def bulkStore {α : Type} (buf : List α) (delivered : List α) : List α :=
  delivered.take buf.length ++ buf.drop delivered.length

/-! ## Factor decode (the `bool_factor` branch of `GDS_JArray_Read`) -/

/-- The level count computed at the head of the factor branch:
`nlevels = 0; if (attr.IsString()) nlevels = 1; else if (attr.IsArray()) nlevels = attr.GetArrayLength();` -/
def factorNLevels (attr : CdAny) : Int :=
  if attr.IsString then 1
  else if attr.IsArray then toInt32 (attr.GetArrayLength : Int)
  else 0

/-- The level table `Levels` / `pLevel`: `nlevels+1` slots, slot 0 the empty string, then
the scalar label in slot 1 or the array labels in slots `1..nlevels`. A slot that was
never written is `none`. -/
def factorLevelTable (attr : CdAny) : List (Option jl_value_t) :=
  let nlevels := factorNLevels attr
  let Levels : List (Option jl_value_t) := List.replicate (nlevels + 1).toNat none
  let Levels := Levels.set 0 (some (jl_string ""))
  if attr.IsString then
    Levels.set 1 (some (jl_string attr.GetStr8))
  else if attr.IsArray then
    forLoop nlevels.toNat
      (fun i pLevel => pLevel.set (i + 1) (attr.GetArray[i]?.map jl_string)) Levels
  else
    Levels

/-- One step of the loop "match factor strings":
`v = intbuf[i]; if ((v < 1) || (v > nlevels)) v = 0; *p++ = pLevel[v];` -/
def factorMatchStep (pLevel : List (Option jl_value_t)) (nlevels : Int) (intbuf : List Int)
    (i : Nat) (rv : List (Option jl_value_t)) : List (Option jl_value_t) :=
  let v : Int := intbuf.getD i 0
  let v : Int := if v < 1 ∨ v > nlevels then 0 else v
  rv.set i (pLevel.getD v.toNat none)

/-- The loop "match factor strings" over the `n` cells of the output array. -/
def factorMatch (attr : CdAny) (intbuf : List Int) (n : Nat)
    (rv : List (Option jl_value_t)) : List (Option jl_value_t) :=
  forLoop n (factorMatchStep (factorLevelTable attr) (factorNLevels attr) intbuf) rv

/-- The loop that turns the scratch strings into host strings:
`for (i = 0; i < strbuf.size(); i++) *p++ = jl_pchar_to_string(strbuf[i])`. -/
def stringStore (strbuf : List String) (rv : List (Option jl_value_t)) :
    List (Option jl_value_t) :=
  forLoop strbuf.length (fun i out => out.set i (strbuf[i]?.map jl_string)) rv

/-! ## Arrays of the storage engine and `GDS_JArray_Read` -/

/-- Embeds `CdAbstractArray::TArrayDim`: a fixed-size C array of `C_Int32`, read by index. -/
abbrev TArrayDim := Nat → Int

/-- The pointee of a non-`NULL` argument `Selection`: one mask pointer per dimension. -/
abbrev TSelection := List (Option (List Bool))

/-- What a bulk read of the engine delivers, in element order: the element values when
a numeric kind was requested (`asInt`) and the element texts when a string kind was
requested (`asStr`). -/
structure EngineBlock where
  asInt : List Int
  asStr : List String
  deriving DecidableEq, Repr

/-- What `GDS_JArray_Read` observes of an array object of the storage engine. -/
structure CdAbstractArray where
  Attribute : CdObjAttr
  SVType : Int
  DimCnt : Int
  GetDim : TArrayDim
  GetInfoSelection : TArrayDim → TArrayDim → Option TSelection → Except EngineErr TArrayDim
  ReadData : TArrayDim → TArrayDim → Int → Except EngineErr EngineBlock
  ReadDataEx : TArrayDim → TArrayDim → TSelection → Int → Except EngineErr EngineBlock

/-- Embeds `GDS_Is_RLogical`. -/
def GDS_Is_RLogical (Obj : CdAbstractArray) : Bool :=
  Obj.Attribute.HasName "R.logical"

/-- Embeds `GDS_Is_RFactor`. -/
def GDS_Is_RFactor (Obj : CdAbstractArray) : Bool :=
  if Obj.Attribute.HasName "R.class" && Obj.Attribute.HasName "R.levels" then
    match Obj.Attribute.get "R.class" with
    | some a => a.GetStr8 == "factor"
    | none => false
  else
    false

/-- Modelled from the spec: the macro `COREARRAY_SV_NUMERIC` of the engine headers, which
are not under `src/` ("signed/unsigned 8/16/32/64-bit integers, 32/64-bit floats"). The
abstract kinds never reach this test: their `sv2dt` entry is `NULL`. -/
def COREARRAY_SV_NUMERIC (SV : Int) : Bool :=
  decide (svInt8 ≤ SV ∧ SV ≤ svFloat64)

/-- The three variables that type resolution leaves behind. -/
structure TypeResolution where
  SV : Int
  dat_type : Option jl_datatype_t
  bool_factor : Bool
  deriving DecidableEq, Repr

/-- The type resolution at the head of `GDS_JArray_Read` (from `bool_flag = ...` up to,
not including, the test `if (!dat_type)`). -/
def resolveType (Obj : CdAbstractArray) (SV : Int) : TypeResolution :=
  let bool_flag := GDS_Is_RLogical Obj
  if SV = svCustom then
    if bool_flag then
      { SV := svInt8, dat_type := some jl_bool_type, bool_factor := false }
    else if GDS_Is_RFactor Obj then
      { SV := svInt32, dat_type := some jl_string_type, bool_factor := true }
    else
      let SV := Obj.SVType
      let SV :=
        if SV = svCustomInt then svInt64
        else if SV = svCustomUInt then svUInt64
        else if SV = svCustomFloat then svFloat64
        else if SV = svCustomStr then svStrUTF8
        else SV
      { SV := SV, dat_type := sv2dtLookup SV, bool_factor := false }
  else
    { SV := SV, dat_type := sv2dtLookup SV, bool_factor := false }

def ERR_WRITE_ONLY : String :=
  "Writable only and please call 'readmode()' before reading."

def ERR_DATA_TYPE : String := "Data type is not supported."

def ERR_3_DIMS : String :=
  "The current implementation does not support more than 3 dims. Please asks the author to extend the function."

/-- The reversed extents: `for (i = 0; i < ndim; i++) dims[ndim-i-1] = ValidCnt[i];`. -/
def reverseDims (ndim : Int) (ValidCnt : TArrayDim) : List Int :=
  forLoop ndim.toNat (fun i dims => dims.set (ndim.toNat - i - 1) (ValidCnt i))
    (List.replicate ndim.toNat 0)

/-- The `switch (ndim)` that allocates the output array. -/
def allocOutput (dat_type : jl_datatype_t) (ndim : Int) (dims : List Int) :
    Except Err jl_array_t :=
  if ndim = 1 then
    .ok (jl_alloc_array dat_type [toSizeT (dims.getD 0 0)])
  else if ndim = 2 then
    .ok (jl_alloc_array dat_type [toSizeT (dims.getD 0 0), toSizeT (dims.getD 1 0)])
  else if ndim = 3 then
    .ok (jl_alloc_array dat_type
      [toSizeT (dims.getD 0 0), toSizeT (dims.getD 1 0), toSizeT (dims.getD 2 0)])
  else
    .error (Err.ErrGDSFmt ERR_3_DIMS)

/-- A bulk read issued to the engine, with the semantic type it asks for. -/
inductive BulkCall where
  | ReadData (SV : Int)
  | ReadDataEx (SV : Int)
  deriving DecidableEq, Repr

/-- A run of the reader: the bulk reads it issued to the engine, in order, and what it
returned or threw. -/
structure ReadRun where
  bulkReads : List BulkCall
  result : Except Err jl_array_t

/-- Embeds `if (!Selection) Obj->ReadData(Start, Length, buf, SV); else Obj->ReadDataEx(Start, Length, Selection, buf, SV);`
with the call it issues. -/
def bulkRead (Obj : CdAbstractArray) (Start Length : TArrayDim)
    (Selection : Option TSelection) (SV : Int) : BulkCall × Except EngineErr EngineBlock :=
  match Selection with
  | none => (BulkCall.ReadData SV, Obj.ReadData Start Length SV)
  | some sel => (BulkCall.ReadDataEx SV, Obj.ReadDataEx Start Length sel SV)

/-- The part of `GDS_JArray_Read` after the allocation (from `// read` to `return rv_ans`):
the factor branch, the numeric branch and the `svStrUTF8` branch. -/
def readInto (Obj : CdAbstractArray) (Start Length : TArrayDim)
    (Selection : Option TSelection) (t : TypeResolution) (rv_ans : jl_array_t) : ReadRun :=
  if t.bool_factor then
    -- `Attribute()["R.levels"]`; the engine raises when the name is absent, which
    -- `GDS_Is_RFactor` has excluded
    match Obj.Attribute.get "R.levels" with
    | none => { bulkReads := [], result := .error (Err.engine EngineErr.other) }
    | some attr =>
      let n := jl_array_len rv_ans
      let intbuf : List Int := List.replicate n 0
      let call := bulkRead Obj Start Length Selection svInt32
      match call.2 with
      | .error e => { bulkReads := [call.1], result := .error (Err.engine e) }
      | .ok block =>
        let intbuf := bulkStore intbuf block.asInt
        { bulkReads := [call.1],
          result := .ok { rv_ans with data := factorMatch attr intbuf n rv_ans.data } }
  else if COREARRAY_SV_NUMERIC t.SV then
    let call := bulkRead Obj Start Length Selection t.SV
    match call.2 with
    | .error e => { bulkReads := [call.1], result := .error (Err.engine e) }
    | .ok block =>
      { bulkReads := [call.1],
        result := .ok { rv_ans with
          data := bulkStore rv_ans.data (block.asInt.map (fun v => some (bits v))) } }
  else if t.SV = svStrUTF8 then
    let n := jl_array_len rv_ans
    let strbuf : List String := List.replicate n ""
    let call := bulkRead Obj Start Length Selection t.SV
    match call.2 with
    | .error e => { bulkReads := [call.1], result := .error (Err.engine e) }
    | .ok block =>
      let strbuf := bulkStore strbuf block.asStr
      { bulkReads := [call.1],
        result := .ok { rv_ans with data := stringStore strbuf rv_ans.data } }
  else
    { bulkReads := [], result := .ok rv_ans }

/-- The body of the `try` block of `GDS_JArray_Read`. -/
def GDS_JArray_Read_try (Obj : CdAbstractArray) (Start Length : Option TArrayDim)
    (Selection : Option TSelection) (SV : Int) : ReadRun :=
  let t := resolveType Obj SV
  match t.dat_type with
  | none => { bulkReads := [], result := .error (Err.ErrGDSFmt ERR_DATA_TYPE) }
  | some dat_type =>
    let St : TArrayDim := fun _ => 0
    let Start := match Start with
      | none => St
      | some s => s
    let Length := match Length with
      | none => Obj.GetDim
      | some l => l
    match Obj.GetInfoSelection Start Length Selection with
    | .error e => { bulkReads := [], result := .error (Err.engine e) }
    | .ok ValidCnt =>
      let ndim := Obj.DimCnt
      let dims := reverseDims ndim ValidCnt
      match allocOutput dat_type ndim dims with
      | .error e => { bulkReads := [], result := .error e }
      | .ok rv_ans => readInto Obj Start Length Selection t rv_ans

/-- Embeds `GDS_JArray_Read`: the `try` block with its two handlers, which turn `ErrAllocRead`
and `EZLibError` into `ErrGDSFmt(ERR_WRITE_ONLY)`. -/
def GDS_JArray_Read (Obj : CdAbstractArray) (Start Length : Option TArrayDim)
    (Selection : Option TSelection) (SV : Int) : ReadRun :=
  let r := GDS_JArray_Read_try Obj Start Length Selection SV
  match r.result with
  | .error (Err.engine (EngineErr.ErrAllocRead _)) =>
    { r with result := .error (Err.ErrGDSFmt ERR_WRITE_ONLY) }
  | .error (Err.engine (EngineErr.EZLibError _)) =>
    { r with result := .error (Err.ErrGDSFmt ERR_WRITE_ONLY) }
  | _ => r

/-! ## `GDS_Array_GetDim` -/

def ERR_INSUFFICIENT_BUFFER : String := "Insufficient buffer in 'GDS_Array_GetDim'."

/-- The buffer after `Obj->GetDim(Buffer)`: the engine stores the extents of the `DimCnt`
dimensions at the start of the buffer and leaves the rest of it alone. -/
def CdAbstractArray.GetDimInto (Obj : CdAbstractArray) (Buffer : TArrayDim) : TArrayDim :=
  fun i => if (i : Int) < Obj.DimCnt then Obj.GetDim i else Buffer i

/-- Embeds `GDS_Array_GetDim`. `N_Buf` is the `size_t` argument and `(int)N_Buf` is its
conversion to a 32-bit signed `int`; the result is the caller's buffer after the call. -/
def GDS_Array_GetDim (Obj : CdAbstractArray) (OutBuffer : TArrayDim) (N_Buf : Nat) :
    Except Err TArrayDim :=
  if Obj.DimCnt > toInt32 (N_Buf : Int) then
    .error (Err.ErrCoreArray ERR_INSUFFICIENT_BUFFER)
  else
    .ok (Obj.GetDimInto OutBuffer)

/-! ## Containers, objects and the package state -/

/-- The identity of a container (the address held in a `PdGDSFile`). -/
abbrev CdGDSFile := Nat

/-- Embeds `PdGDSFile`: a container pointer, `none` for `NULL`. -/
abbrev PdGDSFile := Option CdGDSFile

/-- An object of the engine's tree, as far as the registries look at it. The tree is
finite and acyclic, so an object is given together with its chain of parent folders:
a root (no parent folder, owned by the container `file`) or a child of the folder
`folder`. `isAbsFolder` is whether `dynamic_cast<CdGDSAbsFolder*>` succeeds on it and
`NodeCount` is its number of direct children. Two pointers are equal when the objects
are. -/
inductive CdGDSObj where
  | root (id : Nat) (isAbsFolder : Bool) (NodeCount : Nat) (file : PdGDSFile)
  | child (id : Nat) (isAbsFolder : Bool) (NodeCount : Nat) (folder : CdGDSObj)
  deriving DecidableEq, Repr

/-- Embeds `PdGDSObj`: an object pointer, `none` for `NULL`. -/
abbrev PdGDSObj := Option CdGDSObj

/-- Embeds `Obj->Folder()`: the parent folder, `NULL` for a root. -/
def CdGDSObj.Folder : CdGDSObj → PdGDSObj
  | .root _ _ _ _ => none
  | .child _ _ _ folder => some folder

/-- Whether `dynamic_cast<CdGDSAbsFolder*>(Obj)` is not `NULL`. -/
def CdGDSObj.isAbsFolder : CdGDSObj → Bool
  | .root _ f _ _ => f
  | .child _ f _ _ => f

/-- Embeds `Obj->NodeCount()`: the number of direct children. -/
def CdGDSObj.NodeCount : CdGDSObj → Nat
  | .root _ _ n _ => n
  | .child _ _ n _ => n

/-- The walk of `GDS_File_Close` to the root:
`Folder = Obj->Folder(); while (Folder != NULL) { Obj = Folder; Folder = Obj->Folder(); }`. -/
def CdGDSObj.walkToRoot : CdGDSObj → CdGDSObj
  | .root id f n file => .root id f n file
  | .child _ _ _ folder => folder.walkToRoot

/-- Embeds `Obj->GDSFile()`: the owning container; for a root the container it is the root of,
otherwise that of its root. -/
def CdGDSObj.GDSFile : CdGDSObj → PdGDSFile
  | .root _ _ _ file => file
  | .child _ _ _ folder => folder.GDSFile

/-- Modelled from the spec: `CdGDSAbsFolder::HasChild(Obj, true)` of the engine, which is
not under `src/` ("mark every Object for which `object` is a transitive ancestor
(folder-containment test)"): `Node` is the parent folder of `Obj` or of one of its
ancestors. -/
def CdGDSObj.HasChild (Node : CdGDSObj) : CdGDSObj → Bool
  | .root _ _ _ _ => false
  | .child _ _ _ folder => decide (folder = Node) || Node.HasChild folder

def ERR_NOT_EMPTY : String := "not empty"

/-- Modelled from the spec: `CdGDSAbsFolder::DeleteObj(Node, Force)` of the engine, which
is not under `src/` ("`force=true` removes non-empty folders and all descendants;
`force=false` fails (not empty) if it has any child"). -/
def DeleteObj (Node : CdGDSObj) (Force : Bool) : Except EngineErr Unit :=
  if !Force && Node.isAbsFolder && decide (0 < Node.NodeCount) then
    .error (EngineErr.stdException ERR_NOT_EMPTY)
  else
    .ok ()

/-- Embeds `map<PdGDSObj, int>`: the entries of the map. -/
abbrev TObjMap := List (PdGDSObj × Int)

/-- Embeds `map::erase(key)`. -/
def TObjMap.erase (m : TObjMap) (key : PdGDSObj) : TObjMap :=
  m.filter (fun kv => !decide (kv.1 = key))

/-- Embeds `map::find(key)`: the index stored under `key`, if any. -/
def TObjMap.find (m : TObjMap) (key : PdGDSObj) : Option Int :=
  (m.find? (fun kv => decide (kv.1 = key))).map (fun kv => kv.2)

/-- Embeds `map::size()`. -/
def TObjMap.size (m : TObjMap) : Nat := m.length

/-- The three globals: the slot table `PKG_GDS_Files` (its length is
`PKG_MAX_NUM_GDS_FILES`), the tracked list `PKG_GDSObj_List` and the identity map
`PKG_GDSObj_Map`. -/
structure PkgState where
  PKG_GDS_Files : List PdGDSFile
  PKG_GDSObj_List : List PdGDSObj
  PKG_GDSObj_Map : TObjMap
  deriving DecidableEq, Repr

/-- Embeds `PKG_MAX_NUM_GDS_FILES`: the number of slots of the table. -/
def PkgState.PKG_MAX_NUM_GDS_FILES (st : PkgState) : Nat := st.PKG_GDS_Files.length

/-- The search loop `for (i = 0; i < n; i++) if (p i) return i;`: the first hit, if any. -/
def firstIndex (n : Nat) (p : Nat → Bool) : Option Nat := (List.range n).find? p

def ERR_NO_MORE_FILES (n : Nat) : String :=
  "You have opened " ++ toString n ++ " GDS files, and no more is allowed!"

def ERR_FILE_CLOSED : String := "The GDS file has been closed, or invalid."

def ERR_DELETE_ROOT : String := "Can not delete the root."

/-- Embeds `GetEmptyFileIndex`. -/
def GetEmptyFileIndex (st : PkgState) (throw_error : Bool) : Except Err Int :=
  match firstIndex st.PKG_MAX_NUM_GDS_FILES
      (fun i => decide (st.PKG_GDS_Files[i]? = some none)) with
  | some i => .ok (i : Int)
  | none =>
    if throw_error then
      .error (Err.ErrGDSFmt (ERR_NO_MORE_FILES st.PKG_MAX_NUM_GDS_FILES))
    else
      .ok (-1)

/-- Embeds `GetFileIndex`. -/
def GetFileIndex (st : PkgState) (file : PdGDSFile) (throw_error : Bool) : Except Err Int :=
  match firstIndex st.PKG_MAX_NUM_GDS_FILES
      (fun i => decide (st.PKG_GDS_Files[i]? = some file)) with
  | some i => .ok (i : Int)
  | none =>
    if throw_error then
      .error (Err.ErrGDSFmt ERR_FILE_CLOSED)
    else
      .ok (-1)

/-- What an operation on the package state leaves behind: what it returned or threw,
and the state afterwards. -/
structure Run (α : Type) where
  result : Except Err α
  state : PkgState

/-- What the engine does with the container that `new CdGDSFile` has just built: its
address, the outcome of `SaveAsFile`, of `LoadFile` and of `LoadFileFork` on a file name
(and read-only flag), and the lines of `Log().List()` after the attempt. -/
structure NewGDSFile where
  ptr : CdGDSFile
  SaveAsFile : String → Except EngineErr Unit
  LoadFile : String → Bool → Except EngineErr Unit
  LoadFileFork : String → Bool → Except EngineErr Unit
  Log : List String

/-- Embeds `GDS_File_Create`. A failure of the engine deletes the new container and is
rethrown. -/
def GDS_File_Create (st : PkgState) (file : NewGDSFile) (FileName : String) :
    Run PdGDSFile :=
  match GetEmptyFileIndex st true with
  | .error e => { result := .error e, state := st }
  | .ok gds_idx =>
    match file.SaveAsFile FileName with
    | .error e => { result := .error (Err.engine e), state := st }
    | .ok _ =>
      { result := .ok (some file.ptr),
        state := { st with PKG_GDS_Files := st.PKG_GDS_Files.set gds_idx.toNat (some file.ptr) } }

def sLineBreak : String := "\n"

/-- The message built by the handlers of `GDS_File_Open`: the text of the exception,
then, when the log is not empty, a line `Log:` and the log lines. -/
def openFailureMsg (what : String) (Log : List String) : String :=
  if Log.isEmpty then what
  else Log.foldl (fun Msg line => Msg ++ sLineBreak ++ line) (what ++ sLineBreak ++ "Log:")

/-- Embeds `GDS_File_Open`. -/
def GDS_File_Open (st : PkgState) (file : NewGDSFile) (FileName : String)
    (ReadOnly ForkSupport : Bool) : Run PdGDSFile :=
  match GetEmptyFileIndex st true with
  | .error e => { result := .error e, state := st }
  | .ok gds_idx =>
    let loaded :=
      if !ForkSupport then file.LoadFile FileName ReadOnly
      else file.LoadFileFork FileName ReadOnly
    match loaded with
    | .ok _ =>
      { result := .ok (some file.ptr),
        state := { st with PKG_GDS_Files := st.PKG_GDS_Files.set gds_idx.toNat (some file.ptr) } }
    | .error (EngineErr.ErrAllocRead what) =>
      { result := .error (Err.ErrGDSFmt (openFailureMsg what file.Log)), state := st }
    | .error (EngineErr.EZLibError what) =>
      { result := .error (Err.ErrGDSFmt (openFailureMsg what file.Log)), state := st }
    | .error (EngineErr.stdException what) =>
      { result := .error (Err.ErrGDSFmt (openFailureMsg what file.Log)), state := st }
    | .error (EngineErr.cstr E) =>
      { result := .error (Err.ErrGDSFmt (openFailureMsg E file.Log)), state := st }
    | .error EngineErr.other =>
      { result := .error (Err.engine EngineErr.other), state := st }

/-- One step of the loop of `GDS_File_Close` over `PKG_GDSObj_List`, at position `i`:
a slot that is not `NULL` and whose root belongs to `File` is erased from the map and
set to `NULL`. -/
def closeStep (File : PdGDSFile) (i : Nat) (s : List PdGDSObj × TObjMap) :
    List PdGDSObj × TObjMap :=
  match s.1[i]? with
  | some (some Obj) =>
    if Obj.walkToRoot.GDSFile = File then
      (s.1.set i none, s.2.erase (some Obj))
    else s
  | _ => s

/-- Embeds `GDS_File_Close` (the final `delete File` is the engine's). -/
def GDS_File_Close (st : PkgState) (File : PdGDSFile) : PkgState :=
  match GetFileIndex st File false with
  | .error _ => st
  | .ok gds_idx =>
    if gds_idx ≥ 0 then
      let files := st.PKG_GDS_Files.set gds_idx.toNat none
      let s := forLoop st.PKG_GDSObj_List.length (closeStep File)
        (st.PKG_GDSObj_List, st.PKG_GDSObj_Map)
      { PKG_GDS_Files := files, PKG_GDSObj_List := s.1, PKG_GDSObj_Map := s.2 }
    else st

/-- The marking array of `GDS_Node_Delete` together with a record of every store
`DeleteArray[idx] = true` as the pair of `idx` and `DeleteArray.size()`, and with
`undefinedBehaviour`, which is set by a store outside the array: such a store writes to
the heap behind the vector, and from then on the C++ program has no defined behaviour
(it may corrupt the heap and abort). -/
structure PreScan where
  DeleteArray : List Bool
  stores : List (Nat × Nat)
  undefinedBehaviour : Bool
  deriving DecidableEq, Repr

/-- One step of the pre-scan at list position `idx`. A store at a position inside the
marking array sets the flag there. A store at a position outside it has no slot of the
array to change and is undefined behaviour: the step raises `undefinedBehaviour`, and
what the later fields of the run say is then only the continuation in which the stray
byte does no harm. -/
def preScanStep (Node : CdGDSObj) (objs : List PdGDSObj) (idx : Nat) (s : PreScan) :
    PreScan :=
  match objs[idx]? with
  | some (some p) =>
    if Node.HasChild p then
      { DeleteArray := s.DeleteArray.set idx true,
        stores := s.stores ++ [(idx, s.DeleteArray.length)],
        undefinedBehaviour := s.undefinedBehaviour || decide (s.DeleteArray.length ≤ idx) }
    else s
  | _ => s

/-- The pre-scan of `GDS_Node_Delete`: nothing for a node that is not a folder, otherwise
an array of `PKG_GDSObj_Map.size()` flags and one step per position of the list. -/
def preScan (st : PkgState) (Node : CdGDSObj) : PreScan :=
  if Node.isAbsFolder then
    forLoop st.PKG_GDSObj_List.length (preScanStep Node st.PKG_GDSObj_List)
      { DeleteArray := List.replicate st.PKG_GDSObj_Map.size false, stores := [],
        undefinedBehaviour := false }
  else
    { DeleteArray := [], stores := [], undefinedBehaviour := false }

/-- The registry part of the state during the final loop of `GDS_Node_Delete`, with a
record of every access `PKG_GDSObj_List[idx]` as the pair of `idx` and the list size. -/
structure PostLoop where
  objs : List PdGDSObj
  map : TObjMap
  reads : List (Nat × Nat)
  deriving DecidableEq, Repr

/-- One step of the final loop at position `idx` of the marking array. -/
def postStep (DeleteArray : List Bool) (idx : Nat) (s : PostLoop) : PostLoop :=
  if DeleteArray.getD idx false then
    let Obj : PdGDSObj := s.objs.getD idx none
    { objs := s.objs.set idx none,
      map := s.map.erase Obj,
      reads := s.reads ++ [(idx, s.objs.length)] }
  else s

/-- A run of `GDS_Node_Delete`: what it returned or threw, the state afterwards, the
stores into the marking array, the accesses to the list in the final loop, and whether
the pre-scan stored outside the marking array. When `undefinedBehaviour` is set the
program has written behind the vector before it returned or threw anything, and `result`
and `state` describe only the continuation in which that write does no harm; they say
what the program does only for a run in which `undefinedBehaviour` is `false`. -/
structure DeleteRun where
  result : Except Err Unit
  state : PkgState
  stores : List (Nat × Nat)
  reads : List (Nat × Nat)
  undefinedBehaviour : Bool
  deriving Repr

/-- Embeds `GDS_Node_Delete`. -/
def GDS_Node_Delete (st : PkgState) (Node : PdGDSObj) (Force : Int) : DeleteRun :=
  match Node with
  | none =>
    { result := .ok (), state := st, stores := [], reads := [], undefinedBehaviour := false }
  | some node =>
    let scan := preScan st node
    let deleted : Except Err Unit :=
      match node.Folder with
      | some _ =>
        match DeleteObj node (decide (Force ≠ 0)) with
        | .ok _ => .ok ()
        | .error e => .error (Err.engine e)
      | none => .error (Err.ErrGDSFmt ERR_DELETE_ROOT)
    match deleted with
    | .error e =>
      { result := .error e, state := st, stores := scan.stores, reads := [],
        undefinedBehaviour := scan.undefinedBehaviour }
    | .ok _ =>
      let objs := st.PKG_GDSObj_List.map (fun p => if p = some node then none else p)
      let map := st.PKG_GDSObj_Map.erase (some node)
      let s : PostLoop :=
        if !scan.DeleteArray.isEmpty then
          forLoop scan.DeleteArray.length (postStep scan.DeleteArray)
            { objs := objs, map := map, reads := [] }
        else
          { objs := objs, map := map, reads := [] }
      { result := .ok (),
        state := { st with PKG_GDSObj_List := s.objs, PKG_GDSObj_Map := s.map },
        stores := scan.stores,
        reads := s.reads,
        undefinedBehaviour := scan.undefinedBehaviour }

/-- What the program is known to do in a run of `GDS_Node_Delete`: nothing (`none`) once a
store has fallen outside the marking array, otherwise what it returned or threw together
with the state afterwards. -/
def DeleteRun.outcome (r : DeleteRun) : Option (Except Err Unit × PkgState) :=
  if r.undefinedBehaviour then none else some (r.result, r.state)

/-! ## Sequences of create/open calls -/

/-- A call that opens a container: `GDS_File_Create` or `GDS_File_Open` with its
arguments and with the container that `new CdGDSFile` builds for it. -/
inductive OpenCall where
  | viaCreate (file : NewGDSFile) (FileName : String)
  | viaOpen (file : NewGDSFile) (FileName : String) (ReadOnly ForkSupport : Bool)

/-- The address of the container that the call builds. -/
def OpenCall.ptr : OpenCall → CdGDSFile
  | .viaCreate file _ => file.ptr
  | .viaOpen file _ _ _ => file.ptr

/-- Whether the storage engine does its part of the call without raising. -/
def OpenCall.engineSucceeds : OpenCall → Bool
  | .viaCreate file FileName =>
    match file.SaveAsFile FileName with
    | .ok _ => true
    | .error _ => false
  | .viaOpen file FileName ReadOnly ForkSupport =>
    match (if !ForkSupport then file.LoadFile FileName ReadOnly
           else file.LoadFileFork FileName ReadOnly) with
    | .ok _ => true
    | .error _ => false

/-- Run one call. -/
def OpenCall.run (st : PkgState) : OpenCall → Run PdGDSFile
  | .viaCreate file FileName => GDS_File_Create st file FileName
  | .viaOpen file FileName ReadOnly ForkSupport =>
    GDS_File_Open st file FileName ReadOnly ForkSupport

/-- Run the calls one after the other: their results in order and the final state. -/
def runCalls (st : PkgState) : List OpenCall → List (Except Err PdGDSFile) × PkgState
  | [] => ([], st)
  | c :: cs =>
    let r := c.run st
    let rest := runCalls r.state cs
    (r.result :: rest.1, rest.2)

/-! ## The spec's list of semantic kinds -/

/-- The 16 recognized semantic kinds as the spec counts them: the 8 integer kinds
(4 widths, signed and unsigned), the 2 float kinds, the 2 string kinds and the 4 abstract
custom kinds. -/
def spec_recognizedKinds : List Int :=
  [svInt8, svUInt8, svInt16, svUInt16, svInt32, svUInt32, svInt64, svUInt64,
   svFloat32, svFloat64,
   svStrUTF8, svStrUTF16,
   svCustomInt, svCustomUInt, svCustomFloat, svCustomStr]

/-! ## Auxiliary predicates used to state loop invariants -/

/-- Whether a list entry is an object whose root belongs to `File`. -/
def rootIn (File : PdGDSFile) (p : PdGDSObj) : Bool :=
  match p with
  | some Obj => decide (Obj.walkToRoot.GDSFile = File)
  | none => false

/-- Whether `key` is the entry of one of the first `n` list positions and its root belongs
to `File`. -/
def closedBefore (File : PdGDSFile) (objs : List PdGDSObj) (n : Nat) (key : PdGDSObj) : Bool :=
  (List.range n).any (fun k => decide (objs[k]? = some key) && rootIn File key)

/-- The length of the chain of parent folders above an object. -/
def CdGDSObj.depth : CdGDSObj → Nat
  | .root _ _ _ _ => 0
  | .child _ _ _ folder => folder.depth + 1

/-- Whether list position `j` holds an object below `Node` (what the pre-scan tests). -/
def marked (Node : CdGDSObj) (objs : List PdGDSObj) (j : Nat) : Bool :=
  match objs[j]? with
  | some (some p) => Node.HasChild p
  | _ => false

/-- Whether `key` is the entry of one of the first `n` list positions that the marking
array flags. -/
def erasedBefore (DeleteArray : List Bool) (objs : List PdGDSObj) (n : Nat)
    (key : PdGDSObj) : Bool :=
  (List.range n).any (fun k => DeleteArray.getD k false && decide (objs.getD k none = key))

/-! ## The registry invariant -/

/-- The invariant that ties the identity map to the tracked list: the keys of the map are
distinct, every key is an entry of the list that is not a tombstone, and every entry of
the list that is not a tombstone is a key. -/
def mapKeysAreLiveEntries (st : PkgState) : Prop :=
  (st.PKG_GDSObj_Map.map Prod.fst).Nodup ∧
  (∀ key ∈ st.PKG_GDSObj_Map.map Prod.fst, key ≠ none ∧ key ∈ st.PKG_GDSObj_List) ∧
  (∀ p ∈ st.PKG_GDSObj_List, p ≠ none → p ∈ st.PKG_GDSObj_Map.map Prod.fst)

instance (st : PkgState) : Decidable (mapKeysAreLiveEntries st) := by
  unfold mapKeysAreLiveEntries
  infer_instance

/-! ## Concrete inputs used by the examples -/

/-- An `R.levels` value: the label array `["low", "high"]`. -/
def exLevels : CdAny :=
  { IsString := false, IsArray := true, GetStr8 := "", GetArray := ["low", "high"] }

/-- An `R.class` value: the string `"factor"`. -/
def exClassFactor : CdAny :=
  { IsString := true, IsArray := false, GetStr8 := "factor", GetArray := [] }

/-- A one-dimensional factor object with five elements; every bulk read delivers the
codes `1, 2, 3, 0, -1` (and the texts `a .. e` when strings are asked for). -/
def exFactorObj : CdAbstractArray :=
  { Attribute := [("R.class", exClassFactor), ("R.levels", exLevels)],
    SVType := svInt32,
    DimCnt := 1,
    GetDim := fun _ => 5,
    GetInfoSelection := fun _ Length _ => .ok Length,
    ReadData := fun _ _ _ =>
      .ok { asInt := [1, 2, 3, 0, -1], asStr := ["a", "b", "c", "d", "e"] },
    ReadDataEx := fun _ _ _ _ =>
      .ok { asInt := [1, 2, 3, 0, -1], asStr := ["a", "b", "c", "d", "e"] } }

/-- The root folder of container 7. -/
def exRoot : CdGDSObj := .root 0 true 1 (some 7)

/-- A folder below `exRoot`, with one child. -/
def exFolder : CdGDSObj := .child 1 true 1 exRoot

/-- The array inside `exFolder`. -/
def exChild : CdGDSObj := .child 2 false 0 exFolder

/-- The root folder of container 8 and an array below it. -/
def exOtherRoot : CdGDSObj := .root 10 true 1 (some 8)

def exOtherNode : CdGDSObj := .child 11 false 0 exOtherRoot

/-- A registry after an earlier deletion: slot 1 is a tombstone, so the list (3 slots) is
longer than the map (2 entries), and the child of `exFolder` sits in slot 2. -/
def exTombstoned : PkgState :=
  { PKG_GDS_Files := [some 7, none],
    PKG_GDSObj_List := [some exFolder, none, some exChild],
    PKG_GDSObj_Map := [(some exFolder, 0), (some exChild, 2)] }

/-- A registry after many deletions: 30 tombstones, then the child of `exFolder` in slot
30; the map has the one key of the one live entry. -/
def exLateChild : PkgState :=
  { PKG_GDS_Files := [some 7, none],
    PKG_GDSObj_List := List.replicate 30 none ++ [some exChild],
    PKG_GDSObj_Map := [(some exChild, 30)] }

/-- Two open containers (7 in slot 0, 8 in slot 1); the registry tracks a folder and an
array of container 7, a tombstone, and an array of container 8. -/
def exTwoFiles : PkgState :=
  { PKG_GDS_Files := [some 7, some 8, none],
    PKG_GDSObj_List := [some exFolder, none, some exChild, some exOtherNode],
    PKG_GDSObj_Map := [(some exFolder, 0), (some exChild, 2), (some exOtherNode, 3)] }

/-- A new container at address `p` on which the engine raises nothing. -/
def exNewFile (p : CdGDSFile) : NewGDSFile :=
  { ptr := p,
    SaveAsFile := fun _ => .ok (),
    LoadFile := fun _ _ => .ok (),
    LoadFileFork := fun _ _ => .ok (),
    Log := [] }

/-- An empty slot table of capacity 2 with an empty registry. -/
def exEmpty2 : PkgState :=
  { PKG_GDS_Files := List.replicate 2 none, PKG_GDSObj_List := [], PKG_GDSObj_Map := [] }

/-- The object `exFactorObj` with the attribute `R.logical` added in front. -/
def exLogicalFactorObj : CdAbstractArray :=
  { exFactorObj with
    Attribute := ("R.logical", exClassFactor) :: exFactorObj.Attribute }

/-- An object without attributes whose native kind is the abstract integer kind. -/
def exCustomIntObj : CdAbstractArray :=
  { exFactorObj with Attribute := [], SVType := svCustomInt }

/-- A two-dimensional numeric object whose post-selection extents are 2 (storage
dimension 0) and 3 (storage dimension 1), whatever length is requested. -/
def exMatrixObj : CdAbstractArray :=
  { exFactorObj with
    Attribute := [],
    SVType := svInt16,
    DimCnt := 2,
    GetDim := fun i => if i = 0 then 4 else 6,
    GetInfoSelection := fun _ _ _ => .ok (fun i => if i = 0 then 2 else 3),
    ReadData := fun _ _ _ => .ok { asInt := [1, 2, 3, 4, 5, 6], asStr := [] },
    ReadDataEx := fun _ _ _ _ => .ok { asInt := [1, 2, 3, 4, 5, 6], asStr := [] } }

/-- A one-dimensional string object with five elements stored as UTF-16; every bulk read
delivers the texts `a .. e`. -/
def exUTF16Obj : CdAbstractArray :=
  { exFactorObj with Attribute := [], SVType := svStrUTF16 }

/-- A numeric object of rank 4. -/
def exRank4Obj : CdAbstractArray :=
  { exMatrixObj with DimCnt := 4 }

/-- A numeric object of rank 4 on which the extent query of the engine raises. -/
def exRank4QueryFailsObj : CdAbstractArray :=
  { exRank4Obj with
    GetInfoSelection := fun _ _ _ => .error (EngineErr.stdException "Invalid selection.") }

/-! # Properties -/

/-! ## Lemmas on loops -/

theorem forLoop_zero {σ : Type} (body : Nat → σ → σ) (init : σ) :
    forLoop 0 body init = init := rfl

theorem forLoop_succ {σ : Type} (n : Nat) (body : Nat → σ → σ) (init : σ) :
    forLoop (n + 1) body init = body n (forLoop n body init) := by
  simp [forLoop, List.range_succ, List.foldl_append]

/-- A loop whose step `i` stores `g i` at position `i + k` keeps the length. -/
theorem forLoop_set_length {α : Type} (k : Nat) (g : Nat → α)
    (body : Nat → List α → List α) (hbody : ∀ i s, body i s = s.set (i + k) (g i))
    (n : Nat) (init : List α) :
    (forLoop n body init).length = init.length := by
  induction n with
  | zero => rfl
  | succ n ih => rw [forLoop_succ, hbody, List.length_set, ih]

/-- A loop whose step `i` stores `g i` at position `i + k`: afterwards the positions
`k .. k+n-1` within the list hold `g 0 .. g (n-1)` and every other position is as before. -/
theorem forLoop_set_getElem? {α : Type} (k : Nat) (g : Nat → α)
    (body : Nat → List α → List α) (hbody : ∀ i s, body i s = s.set (i + k) (g i))
    (n : Nat) (init : List α) (j : Nat) :
    (forLoop n body init)[j]? =
      if k ≤ j ∧ j < n + k ∧ j < init.length then some (g (j - k)) else init[j]? := by
  induction n with
  | zero =>
    have : ¬ (k ≤ j ∧ j < 0 + k ∧ j < init.length) := by omega
    rw [forLoop_zero, if_neg this]
  | succ n ih =>
    rw [forLoop_succ, hbody, List.getElem?_set, forLoop_set_length k g body hbody, ih]
    by_cases h1 : n + k = j
    · subst h1
      by_cases h2 : n + k < init.length
      · have h3 : k ≤ n + k ∧ n + k < n + 1 + k ∧ n + k < init.length := by omega
        simp [h2, h3]
      · have h3 : ¬ (k ≤ n + k ∧ n + k < n + 1 + k ∧ n + k < init.length) := by omega
        have h4 : init.length ≤ n + k := by omega
        simp [h2, h3, List.getElem?_eq_none h4]
    · by_cases h2 : k ≤ j ∧ j < n + k ∧ j < init.length
      · have h3 : k ≤ j ∧ j < n + 1 + k ∧ j < init.length := by omega
        simp [h1, h2, h3]
      · have h3 : ¬ (k ≤ j ∧ j < n + 1 + k ∧ j < init.length) := by omega
        simp [h1, h2, h3]

theorem toInt32_of_lt (x : Int) (h0 : 0 ≤ x) (h1 : x < 2147483648) : toInt32 x = x := by
  unfold toInt32; omega

/-! ## Lemmas on the factor decode -/

theorem factorMatch_length (attr : CdAny) (intbuf : List Int) (n : Nat)
    (rv : List (Option jl_value_t)) : (factorMatch attr intbuf n rv).length = rv.length :=
  forLoop_set_length 0
    (fun i => (factorLevelTable attr).getD
      (if intbuf.getD i 0 < 1 ∨ intbuf.getD i 0 > factorNLevels attr then 0
        else intbuf.getD i 0).toNat none)
    _ (fun _ _ => rfl) n rv

theorem bulkStore_eq_of_length {α : Type} (buf delivered : List α)
    (h : delivered.length = buf.length) : bulkStore buf delivered = delivered := by
  unfold bulkStore
  rw [← h, List.take_length, h, List.drop_length, List.append_nil]

/-! ## C1: factor decode -/

theorem firstIndex_succ (n : Nat) (p : Nat → Bool) :
    firstIndex (n + 1) p =
      match firstIndex n p with
      | some i => some i
      | none => if p n then some n else none := by
  unfold firstIndex
  rw [List.range_succ, List.find?_append]
  cases h : List.find? p (List.range n) with
  | some i => rfl
  | none =>
    by_cases hp : p n = true
    · simp [hp]
    · simp [hp]

/-- The search loop returns the lowest index below `n` at which the test holds. -/
theorem firstIndex_eq_some (n : Nat) (p : Nat → Bool) (i : Nat) :
    firstIndex n p = some i ↔ i < n ∧ p i = true ∧ ∀ j, j < i → p j = false := by
  induction n generalizing i with
  | zero =>
    constructor
    · intro h; exact Option.noConfusion h
    · intro h; omega
  | succ n ih =>
    rw [firstIndex_succ]
    cases h : firstIndex n p with
    | some k =>
      have hk := (ih k).1 h
      constructor
      · intro e
        have e2 : k = i := Option.some.inj e
        subst e2
        exact ⟨by omega, hk.2.1, hk.2.2⟩
      · intro hi
        have : ¬ k < i := fun hlt => by
          have := hi.2.2 k hlt
          rw [hk.2.1] at this
          exact Bool.noConfusion this
        have : ¬ i < k := fun hlt => by
          have := hk.2.2 i hlt
          rw [hi.2.1] at this
          exact Bool.noConfusion this
        have e2 : k = i := by omega
        rw [e2]
    | none =>
      have hnone : ∀ j, j < n → p j = false := by
        intro j hj
        by_contra hp
        have hp2 : p j = true := by simpa using hp
        -- the least hit below `n` would be found
        have hex : ∃ m, m < n ∧ p m = true := ⟨j, hj, hp2⟩
        classical
        let m := Nat.find hex
        have hm : m < n ∧ p m = true := Nat.find_spec hex
        have hmin : ∀ j, j < m → p j = false := by
          intro j2 hj2
          by_contra hp3
          have hp4 : p j2 = true := by simpa using hp3
          exact Nat.find_min hex hj2 ⟨by omega, hp4⟩
        have := (ih m).2 ⟨hm.1, hm.2, hmin⟩
        rw [h] at this
        exact Option.noConfusion this
      by_cases hp : p n = true
      · simp only [hp, if_true]
        constructor
        · intro e
          have e2 : n = i := Option.some.inj e
          subst e2
          exact ⟨by omega, hp, hnone⟩
        · intro hi
          have : ¬ i < n := fun hlt => by
            have := hnone i hlt
            rw [hi.2.1] at this
            exact Bool.noConfusion this
          have e2 : n = i := by omega
          rw [e2]
      · simp only [hp]
        constructor
        · intro e; exact Option.noConfusion e
        · intro hi
          have hin : i = n ∨ i < n := by omega
          cases hin with
          | inl e => rw [e] at hi; exact absurd hi.2.1 hp
          | inr hlt =>
            have := hnone i hlt
            rw [hi.2.1] at this
            exact Bool.noConfusion this

/-- The search loop finds nothing exactly when the test fails at every index below `n`. -/
theorem firstIndex_eq_none (n : Nat) (p : Nat → Bool) :
    firstIndex n p = none ↔ ∀ j, j < n → p j = false := by
  unfold firstIndex
  rw [List.find?_eq_none]
  constructor
  · intro h j hj
    have := h j (List.mem_range.2 hj)
    simpa using this
  · intro h j hj
    have := h j (List.mem_range.1 hj)
    simp [this]

/-- Looking a key up after a filter on the keys. -/
theorem TObjMap.find_filter_key (m : TObjMap) (q : PdGDSObj → Bool) (key : PdGDSObj) :
    TObjMap.find (m.filter (fun kv => q kv.1)) key = if q key then TObjMap.find m key else none := by
  induction m with
  | nil => simp [TObjMap.find]
  | cons kv m ih =>
    unfold TObjMap.find at ih ⊢
    by_cases hq : q kv.1 = true
    · have e : (kv :: m).filter (fun kv => q kv.1) = kv :: m.filter (fun kv => q kv.1) := by
        simp [List.filter_cons, hq]
      rw [e]
      by_cases hk : kv.1 = key
      · subst hk
        simp [List.find?_cons, hq]
      · simp only [List.find?_cons, hk, decide_False]
        exact ih
    · have e : (kv :: m).filter (fun kv => q kv.1) = m.filter (fun kv => q kv.1) := by
        simp [List.filter_cons, hq]
      rw [e]
      by_cases hk : kv.1 = key
      · subst hk
        simp only [List.find?_cons, decide_True]
        rw [ih]
        simp [hq]
      · simp only [List.find?_cons, hk, decide_False]
        exact ih

/-! ## Lemmas on the loop of `GDS_File_Close` -/

theorem closedBefore_succ (File : PdGDSFile) (objs : List PdGDSObj) (n : Nat) (key : PdGDSObj) :
    closedBefore File objs (n + 1) key =
      (closedBefore File objs n key || (decide (objs[n]? = some key) && rootIn File key)) := by
  unfold closedBefore
  rw [List.range_succ, List.any_append]
  simp

/-- The invariant of the loop of `GDS_File_Close` after `n` steps: the list has its
length, the first `n` slots are cleared where their root belongs to `File` and kept
otherwise, the later slots are untouched, and the map has lost the keys cleared so far. -/
theorem closeLoop_spec (File : PdGDSFile) (l : List PdGDSObj) (m : TObjMap) (n : Nat) :
    (forLoop n (closeStep File) (l, m)).1.length = l.length ∧
    (∀ j, (forLoop n (closeStep File) (l, m)).1[j]? =
      if j < n then (l[j]?).map (fun p => if rootIn File p then none else p) else l[j]?) ∧
    (forLoop n (closeStep File) (l, m)).2 =
      m.filter (fun kv => !closedBefore File l n kv.1) := by
  induction n with
  | zero =>
    refine ⟨rfl, ?_, ?_⟩
    · intro j
      rw [forLoop_zero, if_neg (by omega)]
    · rw [forLoop_zero]
      simp [closedBefore]
  | succ n ih =>
    obtain ⟨hlen, hget, hmap⟩ := ih
    rw [forLoop_succ]
    generalize hs : forLoop n (closeStep File) (l, m) = s at hlen hget hmap
    have hn : s.1[n]? = l[n]? := by rw [hget n, if_neg (by omega)]
    have hfilter : ∀ (c : PdGDSObj → Bool), (∀ key, c key = (decide (l[n]? = some key) && rootIn File key)) →
        m.filter (fun kv => !closedBefore File l (n + 1) kv.1)
          = (m.filter (fun kv => !closedBefore File l n kv.1)).filter (fun kv => !c kv.1) := by
      intro c hc
      rw [List.filter_filter]
      congr 1
      funext kv
      rw [closedBefore_succ, hc]
      cases closedBefore File l n kv.1 <;> cases (decide (l[n]? = some kv.1) && rootIn File kv.1) <;> rfl
    unfold closeStep
    rw [hn]
    cases hl : l[n]? with
    | none =>
      refine ⟨hlen, ?_, ?_⟩
      · intro j
        rw [hget j]
        by_cases hj : j < n
        · rw [if_pos hj, if_pos (by omega)]
        · by_cases hjn : j = n
          · subst hjn
            rw [if_neg hj, if_pos (by omega), hl]; rfl
          · rw [if_neg hj, if_neg (by omega)]
      · show s.2 = _
        rw [hmap, hfilter (fun _ => false)]
        · simp
        · intro key; simp [hl]
    | some p =>
      cases p with
      | none =>
        refine ⟨hlen, ?_, ?_⟩
        · intro j
          rw [hget j]
          by_cases hj : j < n
          · rw [if_pos hj, if_pos (by omega)]
          · by_cases hjn : j = n
            · subst hjn
              rw [if_neg hj, if_pos (by omega), hl]; rfl
            · rw [if_neg hj, if_neg (by omega)]
        · show s.2 = _
          rw [hmap, hfilter (fun _ => false)]
          · simp
          · intro key
            by_cases hk : key = none
            · subst hk; simp [rootIn]
            · have : ¬ (some (none : PdGDSObj) = some key) := fun e => hk (Option.some.inj e).symm
              simp [hl, this]
      | some Obj =>
        by_cases hroot : Obj.walkToRoot.GDSFile = File
        · simp only [hroot, if_true]
          have hr : rootIn File (some Obj) = true := by simp [rootIn, hroot]
          refine ⟨by rw [List.length_set]; exact hlen, ?_, ?_⟩
          · intro j
            rw [List.getElem?_set, hget j]
            by_cases hjn : n = j
            · subst hjn
              have hlt : n < s.1.length := by
                rw [hlen]
                by_contra hge
                rw [List.getElem?_eq_none (by omega)] at hl
                exact Option.noConfusion hl
              rw [if_pos rfl, if_pos hlt, if_pos (by omega), hl]
              simp [hr]
            · rw [if_neg hjn]
              by_cases hj : j < n
              · rw [if_pos hj, if_pos (by omega)]
              · rw [if_neg hj, if_neg (by omega)]
          · show s.2.erase (some Obj) = _
            rw [hmap, hfilter (fun key => decide (key = some Obj))]
            · rfl
            · intro key
              by_cases hk : key = some Obj
              · subst hk; simp [hl, hr]
              · have : ¬ (some (some Obj) = some key) := fun e => hk (Option.some.inj e).symm
                simp [hl, this, hk]
        · simp only [hroot, if_false]
          have hr : rootIn File (some Obj) = false := by simp [rootIn, hroot]
          refine ⟨hlen, ?_, ?_⟩
          · intro j
            rw [hget j]
            by_cases hj : j < n
            · rw [if_pos hj, if_pos (by omega)]
            · by_cases hjn : j = n
              · subst hjn
                rw [if_neg hj, if_pos (by omega), hl]
                simp [hr]
              · rw [if_neg hj, if_neg (by omega)]
          · show s.2 = _
            rw [hmap, hfilter (fun _ => false)]
            · simp
            · intro key
              by_cases hk : key = some Obj
              · subst hk; simp [hl, hr]
              · have : ¬ (some (some Obj) = some key) := fun e => hk (Option.some.inj e).symm
                simp [hl, this]

/-! ## Lemmas on the two loops of `GDS_Node_Delete` -/

/-- A folder lies strictly above whatever it contains. -/
theorem CdGDSObj.depth_lt_of_HasChild (Node : CdGDSObj) :
    ∀ x : CdGDSObj, Node.HasChild x = true → Node.depth < x.depth := by
  intro x
  induction x with
  | root id f n file => intro h; exact Bool.noConfusion h
  | child id f n folder ih =>
    intro h
    unfold CdGDSObj.HasChild at h
    rw [Bool.or_eq_true] at h
    rcases h with h | h
    · have e : folder = Node := of_decide_eq_true h
      subst e
      show folder.depth < folder.depth + 1
      exact Nat.lt_succ_self _
    · have := ih h
      show Node.depth < folder.depth + 1
      omega

/-- No object contains itself. -/
theorem CdGDSObj.HasChild_irrefl (Node : CdGDSObj) : Node.HasChild Node = false := by
  cases h : Node.HasChild Node with
  | false => rfl
  | true => exact absurd (CdGDSObj.depth_lt_of_HasChild Node Node h) (Nat.lt_irrefl _)

theorem preScanStep_eq (Node : CdGDSObj) (objs : List PdGDSObj) (idx : Nat) (s : PreScan) :
    preScanStep Node objs idx s =
      if marked Node objs idx then
        { DeleteArray := s.DeleteArray.set idx true,
          stores := s.stores ++ [(idx, s.DeleteArray.length)],
          undefinedBehaviour :=
            s.undefinedBehaviour || decide (s.DeleteArray.length ≤ idx) }
      else s := by
  unfold preScanStep marked
  cases h : objs[idx]? with
  | none => rfl
  | some p =>
    cases p with
    | none => rfl
    | some Obj => rfl

/-- The invariant of the pre-scan after `n` steps over an array of `m` flags: flag `j` is
set exactly when `j < n`, `j < m` and position `j` holds an object below `Node`; every
such position below `n`, inside the array or not, has been recorded as a store. -/
theorem preScan_loop (Node : CdGDSObj) (objs : List PdGDSObj) (m n : Nat) :
    (forLoop n (preScanStep Node objs)
        { DeleteArray := List.replicate m false, stores := [],
          undefinedBehaviour := false }).DeleteArray.length = m ∧
    (∀ j, (forLoop n (preScanStep Node objs)
        { DeleteArray := List.replicate m false, stores := [],
          undefinedBehaviour := false }).DeleteArray.getD j false
          = (decide (j < n) && decide (j < m) && marked Node objs j)) ∧
    (forLoop n (preScanStep Node objs)
        { DeleteArray := List.replicate m false, stores := [],
          undefinedBehaviour := false }).stores
      = ((List.range n).filter (marked Node objs)).map (fun i => (i, m)) := by
  induction n with
  | zero =>
    refine ⟨by simp [forLoop_zero], ?_, by simp [forLoop_zero]⟩
    intro j
    simp [forLoop_zero, List.getD_eq_getElem?_getD, List.getElem?_replicate]
    by_cases hj : j < m <;> simp [hj]
  | succ n ih =>
    obtain ⟨hlen, hget, hst⟩ := ih
    rw [forLoop_succ]
    generalize forLoop n (preScanStep Node objs)
      { DeleteArray := List.replicate m false, stores := [],
          undefinedBehaviour := false } = s at hlen hget hst
    rw [preScanStep_eq]
    by_cases hm : marked Node objs n = true
    · rw [if_pos hm]
      refine ⟨by simp [hlen], ?_, ?_⟩
      · intro j
        simp only [List.getD_eq_getElem?_getD, List.getElem?_set, hlen]
        by_cases hjn : n = j
        · subst hjn
          by_cases hlt : n < m
          · simp [hlt, hm]
          · simp [hlt]
        · have := hget j
          rw [List.getD_eq_getElem?_getD] at this
          rw [if_neg hjn, this]
          by_cases h1 : j < n
          · have h2 : j < n + 1 := by omega
            simp [h1, h2]
          · have h2 : ¬ j < n + 1 := by omega
            simp [h1, h2]
      · simp only
        rw [hst, hlen, List.range_succ, List.filter_append, List.map_append]
        simp [hm]
    · have hm2 : marked Node objs n = false := by simpa using hm
      rw [if_neg hm]
      refine ⟨hlen, ?_, ?_⟩
      · intro j
        rw [hget j]
        by_cases hjn : j = n
        · subst hjn
          simp [hm2]
        · by_cases h1 : j < n
          · have h2 : j < n + 1 := by omega
            simp [h1, h2]
          · have h2 : ¬ j < n + 1 := by omega
            simp [h1, h2]
      · rw [hst, List.range_succ, List.filter_append]
        simp [hm2]

theorem erasedBefore_succ (DeleteArray : List Bool) (objs : List PdGDSObj) (n : Nat)
    (key : PdGDSObj) :
    erasedBefore DeleteArray objs (n + 1) key =
      (erasedBefore DeleteArray objs n key ||
        (DeleteArray.getD n false && decide (objs.getD n none = key))) := by
  unfold erasedBefore
  rw [List.range_succ, List.any_append]
  simp

/-- The invariant of the final loop of `GDS_Node_Delete` after `n` steps: the list has its
length, the flagged positions below `n` are cleared and all others untouched, the map has
lost the entries of the flagged positions, and each flagged position has been recorded as
an access. -/
theorem postLoop_spec (DeleteArray : List Bool) (l : List PdGDSObj) (mp : TObjMap) (n : Nat) :
    (forLoop n (postStep DeleteArray) { objs := l, map := mp, reads := [] }).objs.length
      = l.length ∧
    (∀ j, (forLoop n (postStep DeleteArray) { objs := l, map := mp, reads := [] }).objs[j]? =
      if j < n ∧ DeleteArray.getD j false = true then (l[j]?).map (fun _ => none)
      else l[j]?) ∧
    (forLoop n (postStep DeleteArray) { objs := l, map := mp, reads := [] }).map
      = mp.filter (fun kv => !erasedBefore DeleteArray l n kv.1) ∧
    (forLoop n (postStep DeleteArray) { objs := l, map := mp, reads := [] }).reads
      = ((List.range n).filter (fun i => DeleteArray.getD i false)).map
          (fun i => (i, l.length)) := by
  induction n with
  | zero =>
    refine ⟨rfl, ?_, ?_, rfl⟩
    · intro j
      rw [forLoop_zero, if_neg (by omega)]
    · rw [forLoop_zero]
      simp [erasedBefore]
  | succ n ih =>
    obtain ⟨hlen, hget, hmap, hreads⟩ := ih
    rw [forLoop_succ]
    generalize forLoop n (postStep DeleteArray) { objs := l, map := mp, reads := [] } = s
      at hlen hget hmap hreads
    have hn : s.objs[n]? = l[n]? := by rw [hget n, if_neg (by omega)]
    have hobj : s.objs.getD n none = l.getD n none := by
      rw [List.getD_eq_getElem?_getD, List.getD_eq_getElem?_getD, hn]
    unfold postStep
    by_cases hd : DeleteArray.getD n false = true
    · rw [if_pos hd]
      refine ⟨by simp [hlen], ?_, ?_, ?_⟩
      · intro j
        simp only
        rw [List.getElem?_set, hget j, hlen]
        by_cases hjn : n = j
        · subst hjn
          have hc : n < n + 1 ∧ DeleteArray.getD n false = true := ⟨by omega, hd⟩
          rw [if_pos (rfl : n = n), if_pos hc]
          by_cases hlt : n < l.length
          · rw [if_pos hlt, List.getElem?_eq_getElem hlt]; rfl
          · rw [if_neg hlt, List.getElem?_eq_none (by omega)]; rfl
        · rw [if_neg hjn]
          by_cases h1 : j < n ∧ DeleteArray.getD j false = true
          · have h2 : j < n + 1 ∧ DeleteArray.getD j false = true := ⟨by omega, h1.2⟩
            rw [if_pos h1, if_pos h2]
          · have h2 : ¬ (j < n + 1 ∧ DeleteArray.getD j false = true) := by
              intro h3
              exact h1 ⟨by omega, h3.2⟩
            rw [if_neg h1, if_neg h2]
      · simp only
        rw [hmap, hobj]
        unfold TObjMap.erase
        rw [List.filter_filter]
        congr 1
        funext kv
        rw [erasedBefore_succ, hd]
        generalize l.getD n none = K
        generalize erasedBefore DeleteArray l n kv.1 = E
        by_cases hk : kv.1 = K
        · subst hk; cases E <;> simp
        · have hk2 : ¬ K = kv.1 := fun e => hk e.symm
          cases E <;> simp [hk, hk2]
      · simp only
        have hd3 : DeleteArray[n]?.getD false = true := by
          rw [← List.getD_eq_getElem?_getD]; exact hd
        rw [hreads, hlen, List.range_succ, List.filter_append, List.map_append]
        simp [hd3]
    · have hd2 : DeleteArray.getD n false = false := by simpa using hd
      rw [if_neg hd]
      refine ⟨hlen, ?_, ?_, ?_⟩
      · intro j
        rw [hget j]
        by_cases h1 : j < n ∧ DeleteArray.getD j false = true
        · have h2 : j < n + 1 ∧ DeleteArray.getD j false = true := ⟨by omega, h1.2⟩
          rw [if_pos h1, if_pos h2]
        · have h2 : ¬ (j < n + 1 ∧ DeleteArray.getD j false = true) := by
            intro h3
            by_cases hjn : j = n
            · subst hjn; exact hd h3.2
            · exact h1 ⟨by omega, h3.2⟩
          rw [if_neg h1, if_neg h2]
      · rw [hmap]
        congr 1
        funext kv
        rw [erasedBefore_succ, hd2]
        simp
      · have hd3 : DeleteArray[n]?.getD false = false := by
          rw [← List.getD_eq_getElem?_getD]; exact hd2
        rw [hreads, List.range_succ, List.filter_append]
        simp [hd3]

/-- The flags that the pre-scan of a folder leaves behind: position `j` is flagged exactly
when it holds an object below `Node` and lies inside the array of
`PKG_GDSObj_Map.size()` flags. -/
theorem preScan_getD (st : PkgState) (Node : CdGDSObj) (hfolder : Node.isAbsFolder = true)
    (j : Nat) :
    (preScan st Node).DeleteArray.length = st.PKG_GDSObj_Map.size ∧
    (preScan st Node).DeleteArray.getD j false
      = (decide (j < st.PKG_GDSObj_Map.size) && marked Node st.PKG_GDSObj_List j) := by
  unfold preScan
  rw [if_pos hfolder]
  obtain ⟨hlen, hget, _⟩ :=
    preScan_loop Node st.PKG_GDSObj_List st.PKG_GDSObj_Map.size st.PKG_GDSObj_List.length
  refine ⟨hlen, ?_⟩
  rw [hget j]
  by_cases hj : j < st.PKG_GDSObj_List.length
  · simp [hj]
  · have hm : marked Node st.PKG_GDSObj_List j = false := by
      unfold marked
      rw [List.getElem?_eq_none (by omega)]
    simp [hm]

theorem marked_iff (Node : CdGDSObj) (objs : List PdGDSObj) (j : Nat) :
    marked Node objs j = true ↔ ∃ p, objs[j]? = some (some p) ∧ Node.HasChild p = true := by
  unfold marked
  cases h : objs[j]? with
  | none => simp
  | some q =>
    cases q with
    | none => simp
    | some p => simp

/-- A forced deletion of a folder that has a parent, on any state: it returns normally;
the folder itself is tombstoned and erased; a tracked object below the folder is
tombstoned and erased when its list position lies inside the marking array, that is below
`PKG_GDSObj_Map.size()`; every tracked object that is neither the folder nor below it
keeps its slot and its map entry. -/
theorem GDS_Node_Delete_forced (st : PkgState) (node : CdGDSObj) (Force : Int)
    (hpar : node.Folder ≠ none) (hforce : Force ≠ 0) (hfolder : node.isAbsFolder = true) :
    (GDS_Node_Delete st (some node) Force).result = .ok () ∧
    (GDS_Node_Delete st (some node) Force).state.PKG_GDS_Files = st.PKG_GDS_Files ∧
    (GDS_Node_Delete st (some node) Force).state.PKG_GDSObj_List.length
      = st.PKG_GDSObj_List.length ∧
    (∀ k : Nat, st.PKG_GDSObj_List[k]? = some none →
      (GDS_Node_Delete st (some node) Force).state.PKG_GDSObj_List[k]? = some none) ∧
    (∀ (k : Nat) (o : CdGDSObj), st.PKG_GDSObj_List[k]? = some (some o) →
      (o = node →
        (GDS_Node_Delete st (some node) Force).state.PKG_GDSObj_List[k]? = some none ∧
        (GDS_Node_Delete st (some node) Force).state.PKG_GDSObj_Map.find (some o) = none) ∧
      (node.HasChild o = true → k < st.PKG_GDSObj_Map.size →
        (GDS_Node_Delete st (some node) Force).state.PKG_GDSObj_List[k]? = some none ∧
        (GDS_Node_Delete st (some node) Force).state.PKG_GDSObj_Map.find (some o) = none) ∧
      (o ≠ node → node.HasChild o = false →
        (GDS_Node_Delete st (some node) Force).state.PKG_GDSObj_List[k]? = some (some o) ∧
        (GDS_Node_Delete st (some node) Force).state.PKG_GDSObj_Map.find (some o)
          = st.PKG_GDSObj_Map.find (some o))) := by
  obtain ⟨parent, hp⟩ := Option.ne_none_iff_exists'.1 hpar
  have hdel : DeleteObj node (decide (Force ≠ 0)) = .ok () := by
    unfold DeleteObj
    simp [hforce]
  -- the registry after the two unconditional writes
  obtain ⟨objs1, hobjs1def⟩ : ∃ l : List PdGDSObj,
      l = st.PKG_GDSObj_List.map (fun p => if p = some node then none else p) := ⟨_, rfl⟩
  obtain ⟨map1, hmap1def⟩ : ∃ m : TObjMap, m = st.PKG_GDSObj_Map.erase (some node) := ⟨_, rfl⟩
  obtain ⟨DA, hDAdef⟩ : ∃ d : List Bool, d = (preScan st node).DeleteArray := ⟨_, rfl⟩
  have hDAlen : DA.length = st.PKG_GDSObj_Map.size := by
    rw [hDAdef]; exact (preScan_getD st node hfolder 0).1
  have hDA : ∀ j, DA.getD j false
      = (decide (j < st.PKG_GDSObj_Map.size) && marked node st.PKG_GDSObj_List j) := by
    intro j
    rw [hDAdef]; exact (preScan_getD st node hfolder j).2
  have hrun : GDS_Node_Delete st (some node) Force =
      { result := .ok (),
        state := { st with
          PKG_GDSObj_List := (forLoop DA.length (postStep DA)
            { objs := objs1, map := map1, reads := [] }).objs,
          PKG_GDSObj_Map := (forLoop DA.length (postStep DA)
            { objs := objs1, map := map1, reads := [] }).map },
        stores := (preScan st node).stores,
        reads := (forLoop DA.length (postStep DA)
            { objs := objs1, map := map1, reads := [] }).reads,
        undefinedBehaviour := (preScan st node).undefinedBehaviour } := by
    unfold GDS_Node_Delete
    simp only [hp, hdel, ← hobjs1def, ← hmap1def, ← hDAdef]
    by_cases he : DA.isEmpty = true
    · have hnil : DA = [] := List.isEmpty_iff.1 he
      simp only [hnil, List.isEmpty_nil, Bool.not_true, Bool.false_eq_true, if_false,
        List.length_nil, forLoop_zero]
    · simp only [he, Bool.not_false, if_true]
  obtain ⟨hlen, hget, hmap, _⟩ := postLoop_spec DA objs1 map1 DA.length
  have hobjs1 : ∀ k : Nat, objs1[k]? =
      (st.PKG_GDSObj_List[k]?).map (fun p => if p = some node then none else p) := by
    intro k
    rw [hobjs1def]
    exact List.getElem?_map _ _ _
  rw [hrun]
  refine ⟨rfl, rfl, ?_, ?_, ?_⟩
  · show (forLoop DA.length (postStep DA) { objs := objs1, map := map1, reads := [] }).objs.length
      = st.PKG_GDSObj_List.length
    rw [hlen, hobjs1def]
    exact List.length_map _ _
  · intro k hk
    show (forLoop DA.length (postStep DA) { objs := objs1, map := map1, reads := [] }).objs[k]?
      = some none
    rw [hget k, hobjs1 k, hk]
    by_cases hc : k < DA.length ∧ DA.getD k false = true
    · rw [if_pos hc]; rfl
    · rw [if_neg hc]; rfl
  · intro k o hk
    have hfind : ∀ key : PdGDSObj,
        TObjMap.find (forLoop DA.length (postStep DA)
          { objs := objs1, map := map1, reads := [] }).map key
        = if (!erasedBefore DA objs1 DA.length key) = true then
            (if (!decide (key = some node)) = true then TObjMap.find st.PKG_GDSObj_Map key
             else none)
          else none := by
      intro key
      rw [hmap, TObjMap.find_filter_key map1 (fun key => !erasedBefore DA objs1 DA.length key)]
      rw [hmap1def]
      show (if (!erasedBefore DA objs1 DA.length key) = true then
          TObjMap.find (st.PKG_GDSObj_Map.filter (fun kv => !decide (kv.1 = some node))) key
        else none) = _
      rw [TObjMap.find_filter_key st.PKG_GDSObj_Map (fun key => !decide (key = some node))]
    refine ⟨?_, ?_, ?_⟩
    · intro hon
      subst hon
      constructor
      · show (forLoop DA.length (postStep DA)
          { objs := objs1, map := map1, reads := [] }).objs[k]? = some none
        rw [hget k, hobjs1 k, hk]
        by_cases hc : k < DA.length ∧ DA.getD k false = true
        · rw [if_pos hc]; rfl
        · rw [if_neg hc]; simp
      · show TObjMap.find (forLoop DA.length (postStep DA)
          { objs := objs1, map := map1, reads := [] }).map (some o) = none
        rw [hfind]
        simp
    · intro hchild hk2
      have hne : o ≠ node := by
        intro e
        rw [e, CdGDSObj.HasChild_irrefl] at hchild
        exact Bool.noConfusion hchild
      have hmk : marked node st.PKG_GDSObj_List k = true :=
        (marked_iff _ _ _).2 ⟨o, hk, hchild⟩
      have hflag : DA.getD k false = true := by
        rw [hDA k, hmk]
        simp [hk2]
      have hk3 : k < DA.length := by rw [hDAlen]; exact hk2
      have hslot : objs1[k]? = some (some o) := by
        rw [hobjs1 k, hk]
        simp [hne]
      constructor
      · show (forLoop DA.length (postStep DA)
          { objs := objs1, map := map1, reads := [] }).objs[k]? = some none
        rw [hget k, if_pos ⟨hk3, hflag⟩, hslot]
        rfl
      · show TObjMap.find (forLoop DA.length (postStep DA)
          { objs := objs1, map := map1, reads := [] }).map (some o) = none
        rw [hfind]
        have her : erasedBefore DA objs1 DA.length (some o) = true := by
          unfold erasedBefore
          rw [List.any_eq_true]
          refine ⟨k, List.mem_range.2 hk3, ?_⟩
          have hg : objs1.getD k none = some o := by
            rw [List.getD_eq_getElem?_getD, hslot]; rfl
          rw [hflag, hg]
          simp
        simp [her]
    · intro hne hchild
      have hmk : marked node st.PKG_GDSObj_List k = false := by
        cases hm : marked node st.PKG_GDSObj_List k with
        | false => rfl
        | true =>
          obtain ⟨p, hp1, hp2⟩ := (marked_iff _ _ _).1 hm
          rw [hk] at hp1
          have e : o = p := Option.some.inj (Option.some.inj hp1)
          rw [← e, hchild] at hp2
          exact Bool.noConfusion hp2
      have hflag : DA.getD k false = false := by
        rw [hDA k, hmk]
        simp
      have hslot : objs1[k]? = some (some o) := by
        rw [hobjs1 k, hk]
        simp [hne]
      constructor
      · show (forLoop DA.length (postStep DA)
          { objs := objs1, map := map1, reads := [] }).objs[k]? = some (some o)
        have hc : ¬ (k < DA.length ∧ DA.getD k false = true) := by
          intro h
          rw [hflag] at h
          exact Bool.noConfusion h.2
        rw [hget k, if_neg hc, hslot]
      · show TObjMap.find (forLoop DA.length (postStep DA)
          { objs := objs1, map := map1, reads := [] }).map (some o)
            = TObjMap.find st.PKG_GDSObj_Map (some o)
        rw [hfind]
        have her : erasedBefore DA objs1 DA.length (some o) = false := by
          unfold erasedBefore
          rw [List.any_eq_false]
          intro j _
          by_cases hfj : DA.getD j false = true
          · have hmj : marked node st.PKG_GDSObj_List j = true := by
              have := hDA j
              rw [hfj] at this
              cases hmm : marked node st.PKG_GDSObj_List j with
              | true => rfl
              | false => rw [hmm] at this; simp at this
            obtain ⟨p, hp1, hp2⟩ := (marked_iff _ _ _).1 hmj
            have hpn : p ≠ node := by
              intro e
              rw [e, CdGDSObj.HasChild_irrefl] at hp2
              exact Bool.noConfusion hp2
            have hslotj : objs1[j]? = some (some p) := by
              rw [hobjs1 j, hp1]
              simp [hpn]
            have hpo : p ≠ o := by
              intro e
              rw [e, hchild] at hp2
              exact Bool.noConfusion hp2
            have hg : objs1.getD j none = some p := by
              rw [List.getD_eq_getElem?_getD, hslotj]; rfl
            have hpo2 : ¬ (some p : PdGDSObj) = some o := fun e => hpo (Option.some.inj e)
            rw [hg]
            simp [hpo2]
          · have hfj2 : DA.getD j false = false := by simpa using hfj
            rw [hfj2]
            simp
        have hne2 : ¬ (some o : PdGDSObj) = some node := fun e => hne (Option.some.inj e)
        simp [her, hne2]

/-! ## C2: forced deletion of a folder -/

/-- C2, at a registry with a tombstone in front of a descendant. `exFolder` has a parent
and is a transitive ancestor of `exChild`, which is tracked in slot 2; the marking array
has `PKG_GDSObj_Map.size() = 2` entries, so the store for slot 2 falls outside it and the
final loop visits slots 0 and 1 only. The forced deletion returns normally and `exChild`
is still in the list and in the map afterwards. -/
theorem C2_forced_delete_leaves_descendant :
    exFolder.Folder = some exRoot ∧
    exFolder.isAbsFolder = true ∧
    exFolder.HasChild exChild = true ∧
    exTombstoned.PKG_GDSObj_List[2]? = some (some exChild) ∧
    (GDS_Node_Delete exTombstoned (some exFolder) 1).result = .ok () ∧
    (GDS_Node_Delete exTombstoned (some exFolder) 1).stores = [(2, 2)] ∧
    (GDS_Node_Delete exTombstoned (some exFolder) 1).state.PKG_GDSObj_List
      = [none, none, some exChild] ∧
    (GDS_Node_Delete exTombstoned (some exFolder) 1).state.PKG_GDSObj_Map.find (some exChild)
      = some 2 := by
  refine ⟨rfl, rfl, by decide, rfl, rfl, by decide, by decide, by decide⟩

/-! ## C3: closing a container -/

/-- C3. `GDS_File_Close` on a container `f` that occupies a slot: the slot found for `f`
is empty afterwards and every other slot is unchanged; the tracked list keeps its length
and its tombstones; a tracked object whose root (reached through the parent-folder links)
belongs to `f` is tombstoned in the list and has no entry in the identity map; a tracked
object whose root belongs to something else keeps its slot and its map entry. -/
theorem C3_close_container (st : PkgState) (f : CdGDSFile)
    (hocc : some f ∈ st.PKG_GDS_Files) :
    ∃ i : Nat, i < st.PKG_GDS_Files.length ∧ st.PKG_GDS_Files[i]? = some (some f) ∧
      (GDS_File_Close st (some f)).PKG_GDS_Files.length = st.PKG_GDS_Files.length ∧
      (GDS_File_Close st (some f)).PKG_GDS_Files[i]? = some none ∧
      (∀ j : Nat, j ≠ i →
        (GDS_File_Close st (some f)).PKG_GDS_Files[j]? = st.PKG_GDS_Files[j]?) ∧
      (GDS_File_Close st (some f)).PKG_GDSObj_List.length = st.PKG_GDSObj_List.length ∧
      (∀ k : Nat, st.PKG_GDSObj_List[k]? = some none →
        (GDS_File_Close st (some f)).PKG_GDSObj_List[k]? = some none) ∧
      (∀ (k : Nat) (Obj : CdGDSObj), st.PKG_GDSObj_List[k]? = some (some Obj) →
        (Obj.walkToRoot.GDSFile = some f →
          (GDS_File_Close st (some f)).PKG_GDSObj_List[k]? = some none ∧
          (GDS_File_Close st (some f)).PKG_GDSObj_Map.find (some Obj) = none) ∧
        (Obj.walkToRoot.GDSFile ≠ some f →
          (GDS_File_Close st (some f)).PKG_GDSObj_List[k]? = some (some Obj) ∧
          (GDS_File_Close st (some f)).PKG_GDSObj_Map.find (some Obj)
            = st.PKG_GDSObj_Map.find (some Obj))) := by
  -- the slot that `GetFileIndex` finds
  obtain ⟨j0, hj0, hj0eq⟩ := List.getElem_of_mem hocc
  have hsome : ∃ i, firstIndex st.PKG_MAX_NUM_GDS_FILES
      (fun i => decide (st.PKG_GDS_Files[i]? = some (some f))) = some i := by
    cases h : firstIndex st.PKG_MAX_NUM_GDS_FILES
        (fun i => decide (st.PKG_GDS_Files[i]? = some (some f))) with
    | some i => exact ⟨i, rfl⟩
    | none =>
      have := (firstIndex_eq_none _ _).1 h j0 hj0
      rw [List.getElem?_eq_getElem hj0, hj0eq] at this
      simp at this
  obtain ⟨i, hi⟩ := hsome
  obtain ⟨hilt, hip, _⟩ := (firstIndex_eq_some _ _ _).1 hi
  have hislot : st.PKG_GDS_Files[i]? = some (some f) := by simpa using hip
  have hilt2 : i < st.PKG_GDS_Files.length := hilt
  -- the state after the call
  have hclose : GDS_File_Close st (some f) =
      { PKG_GDS_Files := st.PKG_GDS_Files.set i none,
        PKG_GDSObj_List := (forLoop st.PKG_GDSObj_List.length (closeStep (some f))
          (st.PKG_GDSObj_List, st.PKG_GDSObj_Map)).1,
        PKG_GDSObj_Map := (forLoop st.PKG_GDSObj_List.length (closeStep (some f))
          (st.PKG_GDSObj_List, st.PKG_GDSObj_Map)).2 } := by
    unfold GDS_File_Close GetFileIndex
    rw [hi]
    simp
  obtain ⟨hlen, hget, hmap⟩ :=
    closeLoop_spec (some f) st.PKG_GDSObj_List st.PKG_GDSObj_Map st.PKG_GDSObj_List.length
  rw [hclose]
  refine ⟨i, hilt2, hislot, ?_, ?_, ?_, hlen, ?_, ?_⟩
  · simp
  · simp [List.getElem?_set, hilt2]
  · intro j hj
    simp only
    rw [List.getElem?_set, if_neg (fun e => hj e.symm)]
  · intro k hk
    have hklt : k < st.PKG_GDSObj_List.length := by
      by_contra hge
      rw [List.getElem?_eq_none (by omega)] at hk
      exact Option.noConfusion hk
    simp only
    rw [hget k, if_pos hklt, hk]
    rfl
  · intro k Obj hk
    have hklt : k < st.PKG_GDSObj_List.length := by
      by_contra hge
      rw [List.getElem?_eq_none (by omega)] at hk
      exact Option.noConfusion hk
    simp only
    constructor
    · intro hroot
      have hr : rootIn (some f) (some Obj) = true := by simp [rootIn, hroot]
      constructor
      · rw [hget k, if_pos hklt, hk]
        simp [hr]
      · rw [hmap, TObjMap.find_filter_key st.PKG_GDSObj_Map
          (fun key => !closedBefore (some f) st.PKG_GDSObj_List st.PKG_GDSObj_List.length key)]
        have hcl : closedBefore (some f) st.PKG_GDSObj_List st.PKG_GDSObj_List.length
            (some Obj) = true := by
          unfold closedBefore
          rw [List.any_eq_true]
          exact ⟨k, List.mem_range.2 hklt, by simp [hk, hr]⟩
        simp [hcl]
    · intro hroot
      have hr : rootIn (some f) (some Obj) = false := by simp [rootIn, hroot]
      constructor
      · rw [hget k, if_pos hklt, hk]
        simp [hr]
      · rw [hmap, TObjMap.find_filter_key st.PKG_GDSObj_Map
          (fun key => !closedBefore (some f) st.PKG_GDSObj_List st.PKG_GDSObj_List.length key)]
        have hcl : closedBefore (some f) st.PKG_GDSObj_List st.PKG_GDSObj_List.length
            (some Obj) = false := by
          unfold closedBefore
          rw [List.any_eq_false]
          intro x _
          simp [hr]
        simp [hcl]

/-- C3, on a state with two open containers: closing container 7 empties slot 0, clears
the two tracked objects of container 7 and leaves the object of container 8 alone. -/
theorem C3_close_container_witness :
    GDS_File_Close exTwoFiles (some 7) =
      { PKG_GDS_Files := [none, some 8, none],
        PKG_GDSObj_List := [none, none, none, some exOtherNode],
        PKG_GDSObj_Map := [(some exOtherNode, 3)] } ∧
    some 7 ∈ exTwoFiles.PKG_GDS_Files ∧
    ∃ i : Nat, i < exTwoFiles.PKG_GDS_Files.length ∧
      exTwoFiles.PKG_GDS_Files[i]? = some (some 7) ∧
      (GDS_File_Close exTwoFiles (some 7)).PKG_GDS_Files.length
        = exTwoFiles.PKG_GDS_Files.length ∧
      (GDS_File_Close exTwoFiles (some 7)).PKG_GDS_Files[i]? = some none ∧
      (∀ j : Nat, j ≠ i →
        (GDS_File_Close exTwoFiles (some 7)).PKG_GDS_Files[j]? = exTwoFiles.PKG_GDS_Files[j]?) ∧
      (GDS_File_Close exTwoFiles (some 7)).PKG_GDSObj_List.length
        = exTwoFiles.PKG_GDSObj_List.length ∧
      (∀ k : Nat, exTwoFiles.PKG_GDSObj_List[k]? = some none →
        (GDS_File_Close exTwoFiles (some 7)).PKG_GDSObj_List[k]? = some none) ∧
      (∀ (k : Nat) (Obj : CdGDSObj), exTwoFiles.PKG_GDSObj_List[k]? = some (some Obj) →
        (Obj.walkToRoot.GDSFile = some 7 →
          (GDS_File_Close exTwoFiles (some 7)).PKG_GDSObj_List[k]? = some none ∧
          (GDS_File_Close exTwoFiles (some 7)).PKG_GDSObj_Map.find (some Obj) = none) ∧
        (Obj.walkToRoot.GDSFile ≠ some 7 →
          (GDS_File_Close exTwoFiles (some 7)).PKG_GDSObj_List[k]? = some (some Obj) ∧
          (GDS_File_Close exTwoFiles (some 7)).PKG_GDSObj_Map.find (some Obj)
            = exTwoFiles.PKG_GDSObj_Map.find (some Obj))) :=
  ⟨by decide, by decide, C3_close_container exTwoFiles 7 (by decide)⟩

/-! ## C4: slot allocation -/

theorem GetEmptyFileIndex_lowest (st : PkgState) (i : Nat)
    (hi : st.PKG_GDS_Files[i]? = some none)
    (hlow : ∀ j : Nat, j < i → st.PKG_GDS_Files[j]? ≠ some none) :
    GetEmptyFileIndex st true = .ok (i : Int) := by
  have hlt : i < st.PKG_GDS_Files.length := by
    by_contra hge
    rw [List.getElem?_eq_none (by omega)] at hi
    exact Option.noConfusion hi
  have h : firstIndex st.PKG_MAX_NUM_GDS_FILES
      (fun i => decide (st.PKG_GDS_Files[i]? = some none)) = some i := by
    rw [firstIndex_eq_some]
    refine ⟨hlt, by simp [hi], ?_⟩
    intro j hj
    simp [hlow j hj]
  unfold GetEmptyFileIndex
  rw [h]

theorem GetEmptyFileIndex_full (st : PkgState) (hfull : none ∉ st.PKG_GDS_Files) :
    GetEmptyFileIndex st true
      = .error (Err.ErrGDSFmt (ERR_NO_MORE_FILES st.PKG_MAX_NUM_GDS_FILES)) := by
  have h : firstIndex st.PKG_MAX_NUM_GDS_FILES
      (fun i => decide (st.PKG_GDS_Files[i]? = some none)) = none := by
    rw [firstIndex_eq_none]
    intro j _
    have : st.PKG_GDS_Files[j]? ≠ some none := by
      intro e
      exact hfull (List.getElem?_mem e)
    simp [this]
  unfold GetEmptyFileIndex
  rw [h]
  rfl

/-- What `GetEmptyFileIndex(true)` returns, by cases on the table. -/
theorem GetEmptyFileIndex_cases (st : PkgState) :
    (none ∉ st.PKG_GDS_Files ∧ GetEmptyFileIndex st true
      = .error (Err.ErrGDSFmt (ERR_NO_MORE_FILES st.PKG_MAX_NUM_GDS_FILES))) ∨
    (∃ i : Nat, st.PKG_GDS_Files[i]? = some none ∧
      (∀ j : Nat, j < i → st.PKG_GDS_Files[j]? ≠ some none) ∧
      GetEmptyFileIndex st true = .ok (i : Int)) := by
  cases h : firstIndex st.PKG_MAX_NUM_GDS_FILES
      (fun i => decide (st.PKG_GDS_Files[i]? = some none)) with
  | none =>
    left
    have hfull : none ∉ st.PKG_GDS_Files := by
      intro hmem
      obtain ⟨j, hj, hje⟩ := List.getElem_of_mem hmem
      have := (firstIndex_eq_none _ _).1 h j hj
      rw [List.getElem?_eq_getElem hj, hje] at this
      simp at this
    exact ⟨hfull, GetEmptyFileIndex_full st hfull⟩
  | some i =>
    right
    obtain ⟨_, hp, hlow⟩ := (firstIndex_eq_some _ _ _).1 h
    have hi : st.PKG_GDS_Files[i]? = some none := by simpa using hp
    have hlow2 : ∀ j : Nat, j < i → st.PKG_GDS_Files[j]? ≠ some none := by
      intro j hj
      have := hlow j hj
      simpa using this
    exact ⟨i, hi, hlow2, GetEmptyFileIndex_lowest st i hi hlow2⟩

/-- A create/open call on a table with an empty slot, the engine doing its part: it
returns the new container and installs it in the lowest empty slot. -/
theorem OpenCall.run_ok (st : PkgState) (c : OpenCall) (i : Nat)
    (hi : st.PKG_GDS_Files[i]? = some none)
    (hlow : ∀ j : Nat, j < i → st.PKG_GDS_Files[j]? ≠ some none)
    (hc : c.engineSucceeds = true) :
    (c.run st).result = .ok (some c.ptr) ∧
    (c.run st).state = { st with PKG_GDS_Files := st.PKG_GDS_Files.set i (some c.ptr) } := by
  have hidx := GetEmptyFileIndex_lowest st i hi hlow
  cases c with
  | viaCreate file FileName =>
    simp only [OpenCall.engineSucceeds] at hc
    simp only [OpenCall.run, GDS_File_Create, OpenCall.ptr, hidx]
    cases hs : file.SaveAsFile FileName with
    | error e => rw [hs] at hc; exact Bool.noConfusion hc
    | ok u => exact ⟨rfl, rfl⟩
  | viaOpen file FileName ReadOnly ForkSupport =>
    simp only [OpenCall.engineSucceeds] at hc
    simp only [OpenCall.run, GDS_File_Open, OpenCall.ptr, hidx]
    cases hs : (if (!ForkSupport) = true then file.LoadFile FileName ReadOnly
        else file.LoadFileFork FileName ReadOnly) with
    | error e => rw [hs] at hc; exact Bool.noConfusion hc
    | ok u => exact ⟨rfl, rfl⟩

/-- A create/open call on a full table fails with the capacity error before the engine
is asked, and leaves the state as it was. -/
theorem OpenCall.run_full (st : PkgState) (c : OpenCall) (hfull : none ∉ st.PKG_GDS_Files) :
    (c.run st).result = .error (Err.ErrGDSFmt (ERR_NO_MORE_FILES st.PKG_MAX_NUM_GDS_FILES)) ∧
    (c.run st).state = st := by
  have hidx := GetEmptyFileIndex_full st hfull
  cases c with
  | viaCreate file FileName =>
    simp only [OpenCall.run, GDS_File_Create, hidx]
    exact ⟨trivial, trivial⟩
  | viaOpen file FileName ReadOnly ForkSupport =>
    simp only [OpenCall.run, GDS_File_Open, hidx]
    exact ⟨trivial, trivial⟩

theorem set_length_append {α : Type} (pre : List α) (x y : α) (rest : List α) :
    (pre ++ x :: rest).set pre.length y = pre ++ y :: rest := by
  induction pre with
  | nil => rfl
  | cons a pre ih => simp [ih]

/-- Create/open calls on a table whose occupied slots come first: as long as empty slots
remain and the engine does its part, each call returns its container and takes the
next slot. -/
theorem runCalls_fill (calls : List OpenCall) :
    ∀ (pre : List CdGDSFile) (m : Nat) (st : PkgState),
      st.PKG_GDS_Files = pre.map some ++ List.replicate m none →
      calls.length ≤ m →
      (∀ c ∈ calls, c.engineSucceeds = true) →
      runCalls st calls =
        (calls.map (fun c => .ok (some c.ptr)),
         { st with PKG_GDS_Files :=
            (pre ++ calls.map OpenCall.ptr).map some
              ++ List.replicate (m - calls.length) none }) := by
  induction calls with
  | nil =>
    intro pre m st hfiles _ _
    cases st with
    | mk files objs map =>
      simp only at hfiles
      subst hfiles
      simp [runCalls]
  | cons c cs ih =>
    intro pre m st hfiles hlen hall
    cases m with
    | zero => simp at hlen
    | succ m =>
      have hfiles2 : st.PKG_GDS_Files = pre.map some ++ none :: List.replicate m none := by
        rw [hfiles, List.replicate_succ]
      have hi : st.PKG_GDS_Files[pre.length]? = some none := by
        rw [hfiles2, List.getElem?_append_right (by simp)]
        simp
      have hlow : ∀ j : Nat, j < pre.length → st.PKG_GDS_Files[j]? ≠ some none := by
        intro j hj
        rw [hfiles2, List.getElem?_append_left (by simpa using hj), List.getElem?_map,
          List.getElem?_eq_getElem hj]
        simp
      obtain ⟨hres, hstate⟩ := OpenCall.run_ok st c pre.length hi hlow
        (hall c (List.mem_cons_self _ _))
      have hset : st.PKG_GDS_Files.set pre.length (some c.ptr)
          = (pre ++ [c.ptr]).map some ++ List.replicate m none := by
        rw [hfiles2]
        have := set_length_append (pre.map some) none (some c.ptr) (List.replicate m none)
        rw [List.length_map] at this
        rw [this]
        simp
      have hnext := ih (pre ++ [c.ptr]) m (c.run st).state
        (by rw [hstate]; exact hset)
        (by simpa using hlen)
        (fun c2 hc2 => hall c2 (List.mem_cons_of_mem _ hc2))
      simp only [runCalls]
      rw [hnext, hres, hstate]
      simp

/-- C4. Slot allocation. (1) `GetEmptyFileIndex(true)` fails exactly when no slot is empty,
and then with the capacity error. (2) It returns `i` exactly when slot `i` is the
lowest-index empty slot. (3) A create/open call on a table with an empty slot, the engine
doing its part, returns the new container and installs it in the lowest-index empty slot.
(4) From an empty table of capacity `N`, any `k <= N` create/open calls, the engine doing
its part, all succeed and leave container number `j` in slot `j-1`. (5) A create/open call
on a full table fails with the capacity error and leaves the state unchanged. -/
theorem C4_slot_allocation :
    (∀ st : PkgState,
      ((∃ e, GetEmptyFileIndex st true = .error e) ↔ none ∉ st.PKG_GDS_Files) ∧
      (none ∉ st.PKG_GDS_Files →
        GetEmptyFileIndex st true
          = .error (Err.ErrGDSFmt (ERR_NO_MORE_FILES st.PKG_MAX_NUM_GDS_FILES)))) ∧
    (∀ (st : PkgState) (i : Nat),
      GetEmptyFileIndex st true = .ok (i : Int) ↔
        (st.PKG_GDS_Files[i]? = some none ∧
          ∀ j : Nat, j < i → st.PKG_GDS_Files[j]? ≠ some none)) ∧
    (∀ (st : PkgState) (c : OpenCall) (i : Nat),
      st.PKG_GDS_Files[i]? = some none →
      (∀ j : Nat, j < i → st.PKG_GDS_Files[j]? ≠ some none) →
      c.engineSucceeds = true →
        (c.run st).result = .ok (some c.ptr) ∧
        (c.run st).state = { st with PKG_GDS_Files := st.PKG_GDS_Files.set i (some c.ptr) }) ∧
    (∀ (N : Nat) (objs : List PdGDSObj) (map : TObjMap) (calls : List OpenCall),
      calls.length ≤ N →
      (∀ c ∈ calls, c.engineSucceeds = true) →
        runCalls { PKG_GDS_Files := List.replicate N none,
                   PKG_GDSObj_List := objs, PKG_GDSObj_Map := map } calls =
          (calls.map (fun c => .ok (some c.ptr)),
           { PKG_GDS_Files :=
               calls.map (fun c => some c.ptr) ++ List.replicate (N - calls.length) none,
             PKG_GDSObj_List := objs, PKG_GDSObj_Map := map })) ∧
    (∀ (st : PkgState) (c : OpenCall),
      none ∉ st.PKG_GDS_Files →
        (c.run st).result
          = .error (Err.ErrGDSFmt (ERR_NO_MORE_FILES st.PKG_MAX_NUM_GDS_FILES)) ∧
        (c.run st).state = st) := by
  refine ⟨?_, ?_, ?_, ?_, ?_⟩
  · intro st
    refine ⟨⟨?_, ?_⟩, GetEmptyFileIndex_full st⟩
    · rintro ⟨e, he⟩
      rcases GetEmptyFileIndex_cases st with ⟨hfull, _⟩ | ⟨i, _, _, hok⟩
      · exact hfull
      · rw [hok] at he
        exact Except.noConfusion he
    · intro hfull
      exact ⟨_, GetEmptyFileIndex_full st hfull⟩
  · intro st i
    constructor
    · intro h
      rcases GetEmptyFileIndex_cases st with ⟨_, herr⟩ | ⟨k, hk, hlow, hok⟩
      · rw [herr] at h
        exact Except.noConfusion h
      · rw [hok] at h
        have e : (k : Int) = (i : Int) := Except.ok.inj h
        have e2 : k = i := by omega
        subst e2
        exact ⟨hk, hlow⟩
    · intro h
      exact GetEmptyFileIndex_lowest st i h.1 h.2
  · intro st c i hi hlow hc
    exact OpenCall.run_ok st c i hi hlow hc
  · intro N objs map calls hlen hall
    have h := runCalls_fill calls [] N
      { PKG_GDS_Files := List.replicate N none, PKG_GDSObj_List := objs, PKG_GDSObj_Map := map }
      (by simp) hlen hall
    rw [h]
    simp
  · intro st c hfull
    exact OpenCall.run_full st c hfull

/-- C4, on a table of capacity 2: a create and an open take slots 0 and 1, and a third
call fails with the capacity error and changes nothing. -/
theorem C4_slot_allocation_witness :
    runCalls exEmpty2
        [OpenCall.viaCreate (exNewFile 7) "a.gds", OpenCall.viaOpen (exNewFile 8) "b.gds" true false,
         OpenCall.viaCreate (exNewFile 9) "c.gds"] =
      ([.ok (some 7), .ok (some 8), .error (Err.ErrGDSFmt (ERR_NO_MORE_FILES 2))],
       { PKG_GDS_Files := [some 7, some 8], PKG_GDSObj_List := [], PKG_GDSObj_Map := [] }) ∧
    runCalls exEmpty2
        [OpenCall.viaCreate (exNewFile 7) "a.gds", OpenCall.viaOpen (exNewFile 8) "b.gds" true false] =
      ([.ok (some 7), .ok (some 8)],
       { PKG_GDS_Files := [some 7, some 8] ++ List.replicate (2 - 2) none,
         PKG_GDSObj_List := [], PKG_GDSObj_Map := [] }) :=
  ⟨rfl,
   C4_slot_allocation.2.2.2.1 2 [] []
    [OpenCall.viaCreate (exNewFile 7) "a.gds", OpenCall.viaOpen (exNewFile 8) "b.gds" true false]
    (by decide) (by
      intro c hc
      simp only [List.mem_cons, List.mem_singleton, List.not_mem_nil, or_false] at hc
      rcases hc with h | h <;> subst h <;> rfl)⟩

/-! ## C5: type resolution in automatic mode -/

/-- C5. Type resolution of `GDS_JArray_Read` when the requested type is `svCustom`.
(1) With the attribute `R.logical` the element kind is `svInt8` and the output type is
the boolean type, whatever the other attributes. (2) Otherwise, with both `R.class` and
`R.levels` and `R.class` equal to `"factor"`, the element kind is `svInt32`, the output
type is the string type and factor decoding is on. (3) Otherwise factor decoding is off
and the element kind is the native kind, with `svCustomInt -> svInt64`,
`svCustomUInt -> svUInt64`, `svCustomFloat -> svFloat64`, `svCustomStr -> svStrUTF8` and
every other kind unchanged. -/
theorem C5_auto_type_resolution (Obj : CdAbstractArray) :
    (Obj.Attribute.HasName "R.logical" = true →
      resolveType Obj svCustom
        = { SV := svInt8, dat_type := some jl_bool_type, bool_factor := false }) ∧
    (Obj.Attribute.HasName "R.logical" = false →
      Obj.Attribute.HasName "R.class" = true →
      Obj.Attribute.HasName "R.levels" = true →
      (∃ a, Obj.Attribute.get "R.class" = some a ∧ a.GetStr8 = "factor") →
      resolveType Obj svCustom
        = { SV := svInt32, dat_type := some jl_string_type, bool_factor := true }) ∧
    (Obj.Attribute.HasName "R.logical" = false →
      ¬ (Obj.Attribute.HasName "R.class" = true ∧ Obj.Attribute.HasName "R.levels" = true ∧
          ∃ a, Obj.Attribute.get "R.class" = some a ∧ a.GetStr8 = "factor") →
      (resolveType Obj svCustom).bool_factor = false ∧
      (resolveType Obj svCustom).dat_type = sv2dtLookup (resolveType Obj svCustom).SV ∧
      (Obj.SVType = svCustomInt → (resolveType Obj svCustom).SV = svInt64) ∧
      (Obj.SVType = svCustomUInt → (resolveType Obj svCustom).SV = svUInt64) ∧
      (Obj.SVType = svCustomFloat → (resolveType Obj svCustom).SV = svFloat64) ∧
      (Obj.SVType = svCustomStr → (resolveType Obj svCustom).SV = svStrUTF8) ∧
      (Obj.SVType ≠ svCustomInt → Obj.SVType ≠ svCustomUInt → Obj.SVType ≠ svCustomFloat →
        Obj.SVType ≠ svCustomStr → (resolveType Obj svCustom).SV = Obj.SVType)) := by
  refine ⟨?_, ?_, ?_⟩
  · intro hlog
    simp [resolveType, GDS_Is_RLogical, hlog]
  · intro hlog hclass hlevels hfac
    obtain ⟨a, ha, hstr⟩ := hfac
    have hf : GDS_Is_RFactor Obj = true := by
      simp [GDS_Is_RFactor, hclass, hlevels, ha, hstr]
    simp [resolveType, GDS_Is_RLogical, hlog, hf]
  · intro hlog hnot
    have hf : GDS_Is_RFactor Obj = false := by
      unfold GDS_Is_RFactor
      by_cases h1 : Obj.Attribute.HasName "R.class" = true
      · by_cases h2 : Obj.Attribute.HasName "R.levels" = true
        · cases ha : Obj.Attribute.get "R.class" with
          | none => simp [h1, h2]
          | some a =>
            have : a.GetStr8 ≠ "factor" := fun e => hnot ⟨h1, h2, a, ha, e⟩
            simp [h1, h2, this]
        · simp [h1, h2]
      · simp [h1]
    have hres : resolveType Obj svCustom =
        { SV := (if Obj.SVType = svCustomInt then svInt64
                 else if Obj.SVType = svCustomUInt then svUInt64
                 else if Obj.SVType = svCustomFloat then svFloat64
                 else if Obj.SVType = svCustomStr then svStrUTF8
                 else Obj.SVType),
          dat_type := sv2dtLookup (if Obj.SVType = svCustomInt then svInt64
                 else if Obj.SVType = svCustomUInt then svUInt64
                 else if Obj.SVType = svCustomFloat then svFloat64
                 else if Obj.SVType = svCustomStr then svStrUTF8
                 else Obj.SVType),
          bool_factor := false } := by
      simp [resolveType, GDS_Is_RLogical, hlog, hf]
    rw [hres]
    refine ⟨rfl, rfl, ?_, ?_, ?_, ?_, ?_⟩
    · intro h; simp [h]
    · intro h; simp [h, svCustomUInt, svCustomInt]
    · intro h; simp [h, svCustomFloat, svCustomUInt, svCustomInt]
    · intro h; simp [h, svCustomStr, svCustomFloat, svCustomUInt, svCustomInt]
    · intro h1 h2 h3 h4; simp [h1, h2, h3, h4]

/-- C5, on three objects: one with `R.logical` next to the factor attributes, the factor
object, and an attribute-free object of native kind `svCustomInt`. -/
theorem C5_auto_type_resolution_witness :
    resolveType exLogicalFactorObj svCustom
      = { SV := svInt8, dat_type := some jl_bool_type, bool_factor := false } ∧
    resolveType exFactorObj svCustom
      = { SV := svInt32, dat_type := some jl_string_type, bool_factor := true } ∧
    (resolveType exCustomIntObj svCustom).SV = svInt64 :=
  ⟨(C5_auto_type_resolution exLogicalFactorObj).1 (by decide),
   (C5_auto_type_resolution exFactorObj).2.1 (by decide) (by decide) (by decide)
     ⟨exClassFactor, by decide, by decide⟩,
   ((C5_auto_type_resolution exCustomIntObj).2.2 (by decide)
     (by intro h; exact absurd h.1 (by decide))).2.2.1 rfl⟩

/-! ## C6: an explicitly requested type -/

/-- The table lookup yields a type exactly for the twelve concrete kinds
`svInt8 .. svStrUTF16`. -/
theorem sv2dtLookup_eq_none (SV : Int) :
    sv2dtLookup SV = none ↔ ¬ (svInt8 ≤ SV ∧ SV ≤ svStrUTF16) := by
  unfold sv2dtLookup svInt8 svStrUTF16
  by_cases h : 0 ≤ SV ∧ SV < (sv2dt.length : Int)
  · rw [if_pos h]
    obtain ⟨h0, h1⟩ := h
    have h2 : SV < 17 := h1
    interval_cases SV <;> simp [sv2dt]
  · rw [if_neg h]
    have h1 : ¬ (0 ≤ SV ∧ SV < 17) := h
    constructor
    · intro _; omega
    · intro _; rfl

/-- The part after the allocation raises nothing but exceptions of the engine. -/
theorem readInto_error (Obj : CdAbstractArray) (Start Length : TArrayDim)
    (Selection : Option TSelection) (t : TypeResolution) (rv_ans : jl_array_t) (e : Err)
    (h : (readInto Obj Start Length Selection t rv_ans).result = .error e) :
    ∃ e2, e = Err.engine e2 := by
  unfold readInto at h
  by_cases hf : t.bool_factor = true
  · rw [if_pos hf] at h
    cases ha : Obj.Attribute.get "R.levels" with
    | none =>
      rw [ha] at h
      exact ⟨_, (Except.error.inj h).symm⟩
    | some attr =>
      rw [ha] at h
      dsimp only at h
      cases hc : (bulkRead Obj Start Length Selection svInt32).2 with
      | error e3 =>
        rw [hc] at h
        exact ⟨_, (Except.error.inj h).symm⟩
      | ok block =>
        rw [hc] at h
        exact Except.noConfusion h
  · rw [if_neg hf] at h
    by_cases hnum : COREARRAY_SV_NUMERIC t.SV = true
    · rw [if_pos hnum] at h
      dsimp only at h
      cases hc : (bulkRead Obj Start Length Selection t.SV).2 with
      | error e3 =>
        rw [hc] at h
        exact ⟨_, (Except.error.inj h).symm⟩
      | ok block =>
        rw [hc] at h
        exact Except.noConfusion h
    · rw [if_neg hnum] at h
      by_cases hstr : t.SV = svStrUTF8
      · rw [if_pos hstr] at h
        dsimp only at h
        cases hc : (bulkRead Obj Start Length Selection t.SV).2 with
        | error e3 =>
          rw [hc] at h
          exact ⟨_, (Except.error.inj h).symm⟩
        | ok block =>
          rw [hc] at h
          exact Except.noConfusion h
      · rw [if_neg hstr] at h
        exact Except.noConfusion h

/-- Once the type is resolved, the `try` block raises an exception of the engine or the
rank error, nothing else. -/
theorem GDS_JArray_Read_try_error (Obj : CdAbstractArray) (Start Length : Option TArrayDim)
    (Selection : Option TSelection) (SV : Int) (dt : jl_datatype_t) (e : Err)
    (hdt : (resolveType Obj SV).dat_type = some dt)
    (h : (GDS_JArray_Read_try Obj Start Length Selection SV).result = .error e) :
    (∃ e2, e = Err.engine e2) ∨ e = Err.ErrGDSFmt ERR_3_DIMS := by
  unfold GDS_JArray_Read_try at h
  simp only [hdt] at h
  split at h
  · exact Or.inl ⟨_, (Except.error.inj h).symm⟩
  · split at h
    · rename_i e3 he3
      right
      have he : e = e3 := (Except.error.inj h).symm
      rw [he]
      unfold allocOutput at he3
      split at he3
      · exact Except.noConfusion he3
      · split at he3
        · exact Except.noConfusion he3
        · split at he3
          · exact Except.noConfusion he3
          · exact (Except.error.inj he3).symm
    · exact Or.inl (readInto_error _ _ _ _ _ _ _ h)

/-- C6, as stated, fails at the abstract kinds: each of `svCustomInt`, `svCustomUInt`,
`svCustomFloat` and `svCustomStr` is one of the 16 recognized kinds and is not the
automatic mode, yet a read that asks for it fails with the unsupported-type error, before
any call of the engine. -/
theorem C6_custom_kind_rejected :
    (svCustomInt ∈ spec_recognizedKinds ∧ svCustomInt ≠ svCustom ∧
      GDS_JArray_Read exFactorObj none none none svCustomInt =
        { bulkReads := [], result := .error (Err.ErrGDSFmt ERR_DATA_TYPE) }) ∧
    (svCustomUInt ∈ spec_recognizedKinds ∧ svCustomUInt ≠ svCustom ∧
      GDS_JArray_Read exFactorObj none none none svCustomUInt =
        { bulkReads := [], result := .error (Err.ErrGDSFmt ERR_DATA_TYPE) }) ∧
    (svCustomFloat ∈ spec_recognizedKinds ∧ svCustomFloat ≠ svCustom ∧
      GDS_JArray_Read exFactorObj none none none svCustomFloat =
        { bulkReads := [], result := .error (Err.ErrGDSFmt ERR_DATA_TYPE) }) ∧
    (svCustomStr ∈ spec_recognizedKinds ∧ svCustomStr ≠ svCustom ∧
      GDS_JArray_Read exFactorObj none none none svCustomStr =
        { bulkReads := [], result := .error (Err.ErrGDSFmt ERR_DATA_TYPE) }) :=
  ⟨⟨by decide, by decide, rfl⟩, ⟨by decide, by decide, rfl⟩,
   ⟨by decide, by decide, rfl⟩, ⟨by decide, by decide, rfl⟩⟩

/-- C6, amended. With a requested type other than `svCustom` the requested type is used
as it is, whatever the attributes (no boolean tag, no factor decoding), and the read
fails with the unsupported-type error exactly when the requested type is not one of the
twelve concrete kinds `svInt8 .. svStrUTF16`; the abstract kinds `svCustomInt`,
`svCustomUInt`, `svCustomFloat` and `svCustomStr` are rejected like any unknown value. -/
theorem C6_explicit_type (Obj : CdAbstractArray) (Start Length : Option TArrayDim)
    (Selection : Option TSelection) (SV : Int) (hSV : SV ≠ svCustom) :
    resolveType Obj SV = { SV := SV, dat_type := sv2dtLookup SV, bool_factor := false } ∧
    ((GDS_JArray_Read Obj Start Length Selection SV).result
        = .error (Err.ErrGDSFmt ERR_DATA_TYPE)
      ↔ ¬ (svInt8 ≤ SV ∧ SV ≤ svStrUTF16)) := by
  have hres : resolveType Obj SV
      = { SV := SV, dat_type := sv2dtLookup SV, bool_factor := false } := by
    unfold resolveType
    rw [if_neg hSV]
  refine ⟨hres, ?_⟩
  rw [← sv2dtLookup_eq_none]
  constructor
  · intro h
    by_contra hne
    obtain ⟨dt, hdt⟩ := Option.ne_none_iff_exists'.1 hne
    have hdt2 : (resolveType Obj SV).dat_type = some dt := by rw [hres]; exact hdt
    -- what the `try` block can raise, and what the handlers make of it
    unfold GDS_JArray_Read at h
    cases htry : (GDS_JArray_Read_try Obj Start Length Selection SV).result with
    | ok a =>
      simp only [htry] at h
      exact Except.noConfusion h
    | error e =>
      rcases GDS_JArray_Read_try_error Obj Start Length Selection SV dt e hdt2 htry with
        ⟨e2, he2⟩ | he3
      · subst he2
        cases e2 with
        | ErrAllocRead msg =>
          simp only [htry] at h
          exact absurd (Err.ErrGDSFmt.inj (Except.error.inj h)) (by decide)
        | EZLibError msg =>
          simp only [htry] at h
          exact absurd (Err.ErrGDSFmt.inj (Except.error.inj h)) (by decide)
        | stdException msg =>
          simp only [htry] at h
          exact Err.noConfusion (Except.error.inj h)
        | cstr msg =>
          simp only [htry] at h
          exact Err.noConfusion (Except.error.inj h)
        | other =>
          simp only [htry] at h
          exact Err.noConfusion (Except.error.inj h)
      · subst he3
        simp only [htry] at h
        exact absurd (Err.ErrGDSFmt.inj (Except.error.inj h)) (by decide)
  · intro hnone
    have htry : GDS_JArray_Read_try Obj Start Length Selection SV
        = { bulkReads := [], result := .error (Err.ErrGDSFmt ERR_DATA_TYPE) } := by
      unfold GDS_JArray_Read_try
      simp only [hres, hnone]
    unfold GDS_JArray_Read
    rw [htry]

/-- C6 amended, at the two ends: a read that asks for `svInt16` passes the type check
and a read that asks for the value 17 fails it. -/
theorem C6_explicit_type_witness :
    (GDS_JArray_Read exFactorObj none none none svInt16).result
      ≠ .error (Err.ErrGDSFmt ERR_DATA_TYPE) ∧
    (GDS_JArray_Read exFactorObj none none none 17).result
      = .error (Err.ErrGDSFmt ERR_DATA_TYPE) :=
  ⟨fun h => ((C6_explicit_type exFactorObj none none none svInt16 (by decide)).2.1 h)
      (by decide),
   (C6_explicit_type exFactorObj none none none 17 (by decide)).2.2 (by decide)⟩

/-! ## C7: the shape of the output -/

theorem toSizeT_of_nonneg (x : Int) (h0 : 0 ≤ x) (h1 : x ≤ 2147483647) :
    toSizeT x = x.toNat := by
  unfold toSizeT
  omega

theorem reverseDims_one (V : TArrayDim) : reverseDims 1 V = [V 0] := rfl

theorem reverseDims_two (V : TArrayDim) : reverseDims 2 V = [V 1, V 0] := rfl

theorem reverseDims_three (V : TArrayDim) : reverseDims 3 V = [V 2, V 1, V 0] := rfl

theorem bulkStore_length {α : Type} (buf delivered : List α) :
    (bulkStore buf delivered).length = buf.length := by
  unfold bulkStore
  rw [List.length_append, List.length_take, List.length_drop]
  omega

theorem stringStore_length (strbuf : List String) (rv : List (Option jl_value_t)) :
    (stringStore strbuf rv).length = rv.length :=
  forLoop_set_length 0 (fun i => strbuf[i]?.map jl_string) _ (fun _ _ => rfl) strbuf.length rv

/-- The part after the allocation returns the allocated array with its type, its extents
and its number of cells. -/
theorem readInto_ok_shape (Obj : CdAbstractArray) (Start Length : TArrayDim)
    (Selection : Option TSelection) (t : TypeResolution) (rv_ans a : jl_array_t)
    (h : (readInto Obj Start Length Selection t rv_ans).result = .ok a) :
    a.eltype = rv_ans.eltype ∧ a.dims = rv_ans.dims ∧ jl_array_len a = jl_array_len rv_ans := by
  unfold readInto at h
  by_cases hf : t.bool_factor = true
  · rw [if_pos hf] at h
    cases ha : Obj.Attribute.get "R.levels" with
    | none =>
      rw [ha] at h
      exact Except.noConfusion h
    | some attr =>
      rw [ha] at h
      dsimp only at h
      cases hc : (bulkRead Obj Start Length Selection svInt32).2 with
      | error e3 =>
        rw [hc] at h
        exact Except.noConfusion h
      | ok block =>
        rw [hc] at h
        have e := Except.ok.inj h
        subst e
        exact ⟨rfl, rfl, factorMatch_length _ _ _ _⟩
  · rw [if_neg hf] at h
    by_cases hnum : COREARRAY_SV_NUMERIC t.SV = true
    · rw [if_pos hnum] at h
      dsimp only at h
      cases hc : (bulkRead Obj Start Length Selection t.SV).2 with
      | error e3 =>
        rw [hc] at h
        exact Except.noConfusion h
      | ok block =>
        rw [hc] at h
        have e := Except.ok.inj h
        subst e
        exact ⟨rfl, rfl, bulkStore_length _ _⟩
    · rw [if_neg hnum] at h
      by_cases hstr : t.SV = svStrUTF8
      · rw [if_pos hstr] at h
        dsimp only at h
        cases hc : (bulkRead Obj Start Length Selection t.SV).2 with
        | error e3 =>
          rw [hc] at h
          exact Except.noConfusion h
        | ok block =>
          rw [hc] at h
          have e := Except.ok.inj h
          subst e
          exact ⟨rfl, rfl, stringStore_length _ _⟩
      · rw [if_neg hstr] at h
        have e := Except.ok.inj h
        subst e
        exact ⟨rfl, rfl, rfl⟩

/-- The handlers of `GDS_JArray_Read` leave a normal return as it is. -/
theorem GDS_JArray_Read_ok (Obj : CdAbstractArray) (Start Length : Option TArrayDim)
    (Selection : Option TSelection) (SV : Int) (a : jl_array_t)
    (h : (GDS_JArray_Read Obj Start Length Selection SV).result = .ok a) :
    (GDS_JArray_Read_try Obj Start Length Selection SV).result = .ok a := by
  unfold GDS_JArray_Read at h
  cases htry : (GDS_JArray_Read_try Obj Start Length Selection SV).result with
  | ok b =>
    simp only [htry] at h
    exact h
  | error e =>
    cases e with
    | ErrGDSFmt msg => simp only [htry] at h; exact Except.noConfusion h
    | ErrCoreArray msg => simp only [htry] at h; exact Except.noConfusion h
    | engine e2 =>
      cases e2 with
      | ErrAllocRead msg => simp only [htry] at h; exact Except.noConfusion h
      | EZLibError msg => simp only [htry] at h; exact Except.noConfusion h
      | stdException msg => simp only [htry] at h; exact Except.noConfusion h
      | cstr msg => simp only [htry] at h; exact Except.noConfusion h
      | other => simp only [htry] at h; exact Except.noConfusion h

/-- The `try` block once the type is resolved and the engine has answered the extent
query: the outcome of the allocation decides. -/
theorem GDS_JArray_Read_try_alloc (Obj : CdAbstractArray) (Start Length : Option TArrayDim)
    (Selection : Option TSelection) (SV : Int) (dt : jl_datatype_t) (V : TArrayDim)
    (hdt : (resolveType Obj SV).dat_type = some dt)
    (hV : Obj.GetInfoSelection (Start.getD (fun _ => 0)) (Length.getD Obj.GetDim) Selection
      = .ok V) :
    GDS_JArray_Read_try Obj Start Length Selection SV =
      match allocOutput dt Obj.DimCnt (reverseDims Obj.DimCnt V) with
      | .error e => { bulkReads := [], result := .error e }
      | .ok rv_ans =>
        readInto Obj (Start.getD (fun _ => 0)) (Length.getD Obj.GetDim) Selection
          (resolveType Obj SV) rv_ans := by
  unfold GDS_JArray_Read_try
  simp only [hdt]
  cases Start <;> cases Length <;> simp only [Option.getD] at hV ⊢ <;> rw [hV]

/-- C7. Output shape of `GDS_JArray_Read`: for an object of rank `n` in `{1, 2, 3}` and
the post-selection extents `V[0..n-1]` that the engine returns (non-negative `C_Int32`
values), the output array is allocated with extent `V[n-1-j]` along output dimension `j`
for every `j < n` and with as many cells as the product of `V`, whatever `Start` and
`Length` were requested; an array that the read returns has these extents and this
number of cells. -/
theorem C7_output_shape (Obj : CdAbstractArray) (Start Length : Option TArrayDim)
    (Selection : Option TSelection) (SV : Int) (dt : jl_datatype_t) (V : TArrayDim)
    (hdt : (resolveType Obj SV).dat_type = some dt)
    (hV : Obj.GetInfoSelection (Start.getD (fun _ => 0)) (Length.getD Obj.GetDim) Selection
      = .ok V)
    (hn : Obj.DimCnt = 1 ∨ Obj.DimCnt = 2 ∨ Obj.DimCnt = 3)
    (hext : ∀ i : Nat, (i : Int) < Obj.DimCnt → 0 ≤ V i ∧ V i ≤ 2147483647) :
    ∃ rv_ans : jl_array_t,
      allocOutput dt Obj.DimCnt (reverseDims Obj.DimCnt V) = .ok rv_ans ∧
      (rv_ans.dims.length : Int) = Obj.DimCnt ∧
      (∀ j : Nat, (j : Int) < Obj.DimCnt →
        rv_ans.dims[j]? = some (V (Obj.DimCnt.toNat - 1 - j)).toNat) ∧
      jl_array_len rv_ans = ((List.range Obj.DimCnt.toNat).map (fun i => (V i).toNat)).prod ∧
      (∀ a, (GDS_JArray_Read Obj Start Length Selection SV).result = .ok a →
        a.dims = rv_ans.dims ∧ jl_array_len a = jl_array_len rv_ans) := by
  have hshape : ∀ rv_ans : jl_array_t,
      allocOutput dt Obj.DimCnt (reverseDims Obj.DimCnt V) = .ok rv_ans →
      ∀ a, (GDS_JArray_Read Obj Start Length Selection SV).result = .ok a →
        a.dims = rv_ans.dims ∧ jl_array_len a = jl_array_len rv_ans := by
    intro rv_ans halloc a ha
    have h1 := GDS_JArray_Read_ok _ _ _ _ _ _ ha
    rw [GDS_JArray_Read_try_alloc Obj Start Length Selection SV dt V hdt hV, halloc] at h1
    exact (readInto_ok_shape _ _ _ _ _ _ _ h1).2
  rcases hn with h | h | h
  · have h0 := hext 0 (by rw [h]; decide)
    have halloc : allocOutput dt Obj.DimCnt (reverseDims Obj.DimCnt V)
        = .ok (jl_alloc_array dt [(V 0).toNat]) := by
      rw [h, reverseDims_one]
      simp [allocOutput, toSizeT_of_nonneg _ h0.1 h0.2]
    refine ⟨_, halloc, ?_, ?_, ?_, hshape _ halloc⟩
    · rw [h]; rfl
    · intro j hj
      rw [h] at hj ⊢
      have hj0 : j = 0 := by omega
      subst hj0
      rfl
    · rw [h]
      simp [jl_array_len, jl_alloc_array, List.range_succ]
  · have h0 := hext 0 (by rw [h]; decide)
    have h1 := hext 1 (by rw [h]; decide)
    have halloc : allocOutput dt Obj.DimCnt (reverseDims Obj.DimCnt V)
        = .ok (jl_alloc_array dt [(V 1).toNat, (V 0).toNat]) := by
      rw [h, reverseDims_two]
      simp [allocOutput, toSizeT_of_nonneg _ h0.1 h0.2, toSizeT_of_nonneg _ h1.1 h1.2]
    refine ⟨_, halloc, ?_, ?_, ?_, hshape _ halloc⟩
    · rw [h]; rfl
    · intro j hj
      rw [h] at hj ⊢
      have hj0 : j = 0 ∨ j = 1 := by omega
      rcases hj0 with e | e <;> subst e <;> rfl
    · rw [h]
      simp [jl_array_len, jl_alloc_array, List.range_succ, Nat.mul_comm]
  · have h0 := hext 0 (by rw [h]; decide)
    have h1 := hext 1 (by rw [h]; decide)
    have h2 := hext 2 (by rw [h]; decide)
    have halloc : allocOutput dt Obj.DimCnt (reverseDims Obj.DimCnt V)
        = .ok (jl_alloc_array dt [(V 2).toNat, (V 1).toNat, (V 0).toNat]) := by
      rw [h, reverseDims_three]
      simp [allocOutput, toSizeT_of_nonneg _ h0.1 h0.2, toSizeT_of_nonneg _ h1.1 h1.2,
        toSizeT_of_nonneg _ h2.1 h2.2]
    refine ⟨_, halloc, ?_, ?_, ?_, hshape _ halloc⟩
    · rw [h]; rfl
    · intro j hj
      rw [h] at hj ⊢
      have hj0 : j = 0 ∨ j = 1 ∨ j = 2 := by omega
      rcases hj0 with e | e | e <;> subst e <;> rfl
    · rw [h]
      simp [jl_array_len, jl_alloc_array, List.range_succ]
      ring

/-- C7, on a 2-dimensional object whose post-selection extents are `V = [2, 3]` while the
requested `Length` is 100 everywhere: the output has extents `[3, 2]` and 6 cells. -/
theorem C7_output_shape_witness :
    (GDS_JArray_Read exMatrixObj none (some (fun _ => 100)) none svInt16).result
      = .ok { eltype := jl_int16_type, dims := [3, 2],
              data := [some (bits 1), some (bits 2), some (bits 3),
                       some (bits 4), some (bits 5), some (bits 6)] } ∧
    ∃ rv_ans : jl_array_t,
      allocOutput jl_int16_type exMatrixObj.DimCnt
          (reverseDims exMatrixObj.DimCnt (fun i => if i = 0 then 2 else 3)) = .ok rv_ans ∧
      (rv_ans.dims.length : Int) = exMatrixObj.DimCnt ∧
      (∀ j : Nat, (j : Int) < exMatrixObj.DimCnt →
        rv_ans.dims[j]? = some
          ((fun i : Nat => if i = 0 then (2 : Int) else 3) (exMatrixObj.DimCnt.toNat - 1 - j)).toNat) ∧
      jl_array_len rv_ans = ((List.range exMatrixObj.DimCnt.toNat).map
        (fun i => ((fun i : Nat => if i = 0 then (2 : Int) else 3) i).toNat)).prod ∧
      (∀ a, (GDS_JArray_Read exMatrixObj none (some (fun _ => 100)) none svInt16).result = .ok a →
        a.dims = rv_ans.dims ∧ jl_array_len a = jl_array_len rv_ans) :=
  ⟨rfl,
   C7_output_shape exMatrixObj none (some (fun _ => 100)) none svInt16 jl_int16_type
    (fun i => if i = 0 then 2 else 3) rfl rfl (Or.inr (Or.inl rfl))
    (by
      intro i hi
      have h2 : (i : Int) < 2 := hi
      have hi2 : i = 0 ∨ i = 1 := by omega
      rcases hi2 with e | e <;> subst e <;> decide)⟩

/-! ## C8: a failed deletion -/

theorem preScanStep_undefinedBehaviour (Node : CdGDSObj) (objs : List PdGDSObj) (idx : Nat)
    (s : PreScan)
    (h : s.undefinedBehaviour = s.stores.any (fun x => decide (x.2 ≤ x.1))) :
    (preScanStep Node objs idx s).undefinedBehaviour
      = (preScanStep Node objs idx s).stores.any (fun x => decide (x.2 ≤ x.1)) := by
  rw [preScanStep_eq]
  by_cases hm : marked Node objs idx = true
  · rw [if_pos hm]
    show (s.undefinedBehaviour || decide (s.DeleteArray.length ≤ idx))
      = (s.stores ++ [(idx, s.DeleteArray.length)]).any (fun x => decide (x.2 ≤ x.1))
    rw [List.any_append, h]
    simp
  · rw [if_neg hm]
    exact h

/-- The pre-scan raises `undefinedBehaviour` exactly when one of its stores fell outside
the marking array. -/
theorem preScan_undefinedBehaviour (st : PkgState) (Node : CdGDSObj) :
    (preScan st Node).undefinedBehaviour
      = (preScan st Node).stores.any (fun x => decide (x.2 ≤ x.1)) := by
  unfold preScan
  by_cases hfolder : Node.isAbsFolder = true
  · rw [if_pos hfolder]
    generalize st.PKG_GDSObj_List.length = n
    induction n with
    | zero => rfl
    | succ n ih =>
      rw [forLoop_succ]
      exact preScanStep_undefinedBehaviour _ _ _ _ ih
  · rw [if_neg hfolder]
    rfl

/-- A run of `GDS_Node_Delete` carries the flag and the stores of its pre-scan. -/
theorem GDS_Node_Delete_scan (st : PkgState) (node : CdGDSObj) (Force : Int) :
    (GDS_Node_Delete st (some node) Force).undefinedBehaviour
      = (preScan st node).undefinedBehaviour ∧
    (GDS_Node_Delete st (some node) Force).stores = (preScan st node).stores := by
  unfold GDS_Node_Delete
  simp only
  split <;> exact ⟨rfl, rfl⟩

/-- A failed `GDS_Node_Delete` on a non-null node whose pre-scan stores only inside the
marking array: the run has defined behaviour; a node without a parent folder makes the
call fail with the cannot-delete-root error, and a folder with at least one child under
`Force = 0` makes it fail with the not-empty error of the tree; in both cases the slot
table, the tracked list and the identity map are what they were before the call. -/
theorem GDS_Node_Delete_failure_atomic (st : PkgState) (node : CdGDSObj) (Force : Int)
    (hsafe : ∀ s ∈ (preScan st node).stores, s.1 < s.2) :
    (GDS_Node_Delete st (some node) Force).undefinedBehaviour = false ∧
    (GDS_Node_Delete st (some node) Force).outcome
      = some ((GDS_Node_Delete st (some node) Force).result,
              (GDS_Node_Delete st (some node) Force).state) ∧
    (node.Folder = none →
      (GDS_Node_Delete st (some node) Force).result = .error (Err.ErrGDSFmt ERR_DELETE_ROOT) ∧
      (GDS_Node_Delete st (some node) Force).state = st) ∧
    (node.Folder ≠ none → Force = 0 → node.isAbsFolder = true → 0 < node.NodeCount →
      (GDS_Node_Delete st (some node) Force).result
        = .error (Err.engine (EngineErr.stdException ERR_NOT_EMPTY)) ∧
      (GDS_Node_Delete st (some node) Force).state = st) := by
  have hdef : (GDS_Node_Delete st (some node) Force).undefinedBehaviour = false := by
    rw [(GDS_Node_Delete_scan st node Force).1, preScan_undefinedBehaviour, List.any_eq_false]
    intro x hx
    have := hsafe x hx
    simp only [decide_eq_true_eq]
    omega
  refine ⟨hdef, ?_, ?_, ?_⟩
  · unfold DeleteRun.outcome
    rw [hdef]
    rfl
  · intro hroot
    unfold GDS_Node_Delete
    simp only [hroot]
    exact ⟨trivial, trivial⟩
  · intro hpar hforce hfolder hcount
    obtain ⟨parent, hp⟩ := Option.ne_none_iff_exists'.1 hpar
    have hdel : DeleteObj node (decide (Force ≠ 0))
        = .error (EngineErr.stdException ERR_NOT_EMPTY) := by
      unfold DeleteObj
      simp [hforce, hfolder, hcount]
    unfold GDS_Node_Delete
    simp only [hp, hdel]
    exact ⟨trivial, trivial⟩

/-- C8, at a registry that satisfies the invariant and tracks one object behind 30
tombstones. The map has 1 key, so the marking array has 1 flag. Both failing calls, the
deletion of the root `exRoot` and the deletion of the non-empty folder `exFolder` with
`Force = 0`, first run the pre-scan, which finds `exChild` at list position 30 and stores
at index 30 of the 1-flag array: the program writes behind the vector before it throws,
so its behaviour is undefined instead of a failure that leaves the registry as it was. -/
theorem C8_failed_delete_stray_store :
    mapKeysAreLiveEntries exLateChild ∧
    exRoot.Folder = none ∧
    exRoot.HasChild exChild = true ∧
    exLateChild.PKG_GDSObj_List[30]? = some (some exChild) ∧
    (preScan exLateChild exRoot).DeleteArray.length = 1 ∧
    (GDS_Node_Delete exLateChild (some exRoot) 1).stores = [(30, 1)] ∧
    (GDS_Node_Delete exLateChild (some exRoot) 1).undefinedBehaviour = true ∧
    (GDS_Node_Delete exLateChild (some exRoot) 1).outcome = none ∧
    exFolder.Folder ≠ none ∧ exFolder.isAbsFolder = true ∧ 0 < exFolder.NodeCount ∧
    (GDS_Node_Delete exLateChild (some exFolder) 0).stores = [(30, 1)] ∧
    (GDS_Node_Delete exLateChild (some exFolder) 0).undefinedBehaviour = true ∧
    (GDS_Node_Delete exLateChild (some exFolder) 0).outcome = none := by
  refine ⟨by decide, rfl, by decide, by decide, by decide, by decide, by decide, rfl,
    by decide, rfl, by decide, by decide, by decide, rfl⟩

/-! ## C9: string decode -/

/-- The loop of the `svStrUTF8` branch fills every cell of an output that has as many
cells as there are scratch strings, in order. -/
theorem stringStore_eq (strbuf : List String) (rv : List (Option jl_value_t))
    (h : rv.length = strbuf.length) :
    stringStore strbuf rv = strbuf.map (fun s => some (jl_string s)) := by
  apply List.ext_getElem?
  intro j
  unfold stringStore
  rw [forLoop_set_getElem? 0 (fun i => strbuf[i]?.map jl_string)
    (fun i out => out.set i (strbuf[i]?.map jl_string)) (fun _ _ => rfl), List.getElem?_map]
  by_cases hj : j < strbuf.length
  · rw [if_pos (by omega), Nat.sub_zero, List.getElem?_eq_getElem hj]
    rfl
  · rw [if_neg (by omega), List.getElem?_eq_none (by omega), List.getElem?_eq_none (by omega)]
    rfl

/-- The `svStrUTF8` branch: when the engine delivers as many strings as the output has
cells, the read returns them in order, every cell filled. -/
theorem readInto_svStrUTF8 (Obj : CdAbstractArray) (Start Length : TArrayDim)
    (Selection : Option TSelection) (t : TypeResolution) (rv_ans : jl_array_t)
    (block : EngineBlock)
    (hf : t.bool_factor = false) (hSV : t.SV = svStrUTF8)
    (hread : (bulkRead Obj Start Length Selection svStrUTF8).2 = .ok block)
    (hm : block.asStr.length = jl_array_len rv_ans) :
    (readInto Obj Start Length Selection t rv_ans).result
      = .ok { rv_ans with data := block.asStr.map (fun s => some (jl_string s)) } := by
  have hbuf : bulkStore (List.replicate (jl_array_len rv_ans) "") block.asStr = block.asStr :=
    bulkStore_eq_of_length _ _ (by rw [hm, List.length_replicate])
  have hnum : COREARRAY_SV_NUMERIC svStrUTF8 = false := by decide
  unfold readInto
  simp only [hf, hSV, hnum, hread, hbuf, if_true, Bool.false_eq_true, if_false]
  rw [stringStore_eq _ _ (by rw [hm]; rfl)]

/-- C9, at the other string kind. A read that asks for `svStrUTF16` (explicitly, or
automatically on an object of that native kind) passes the type check with the string
type, allocates the five cells, issues no bulk read and returns the array with every
cell unwritten; the same read with `svStrUTF8` returns the five strings. -/
theorem C9_utf16_cells_unwritten :
    sv2dtLookup svStrUTF16 = some jl_string_type ∧
    GDS_JArray_Read exUTF16Obj none none none svStrUTF16 =
      { bulkReads := [],
        result := .ok { eltype := jl_string_type, dims := [5],
                        data := [none, none, none, none, none] } } ∧
    GDS_JArray_Read exUTF16Obj none none none svCustom =
      { bulkReads := [],
        result := .ok { eltype := jl_string_type, dims := [5],
                        data := [none, none, none, none, none] } } ∧
    GDS_JArray_Read exUTF16Obj none none none svStrUTF8 =
      { bulkReads := [BulkCall.ReadData svStrUTF8],
        result := .ok { eltype := jl_string_type, dims := [5],
                        data := [some (jl_string "a"), some (jl_string "b"),
                                 some (jl_string "c"), some (jl_string "d"),
                                 some (jl_string "e")] } } :=
  ⟨rfl, rfl, rfl, rfl⟩

/-! ## C10: the rank limit -/

/-- C10, as stated, fails at an object of rank 4 whose element type resolves
(`svInt16`) and on which the extent query `GetInfoSelection` raises: the query comes
before the `switch (ndim)`, so the read fails with the exception of the engine and not
with the unsupported-rank error. -/
theorem C10_extent_query_fails_first :
    (resolveType exRank4QueryFailsObj svInt16).dat_type = some jl_int16_type ∧
    exRank4QueryFailsObj.DimCnt = 4 ∧
    GDS_JArray_Read exRank4QueryFailsObj none none none svInt16 =
      { bulkReads := [],
        result := .error (Err.engine (EngineErr.stdException "Invalid selection.")) } ∧
    (GDS_JArray_Read exRank4QueryFailsObj none none none svInt16).result
      ≠ .error (Err.ErrGDSFmt ERR_3_DIMS) := by
  refine ⟨rfl, rfl, rfl, ?_⟩
  intro h
  have h2 : (GDS_JArray_Read exRank4QueryFailsObj none none none svInt16).result
      = .error (Err.engine (EngineErr.stdException "Invalid selection.")) := rfl
  rw [h2] at h
  exact Err.noConfusion (Except.error.inj h)

/-- C10, amended. Rank limit of `GDS_JArray_Read`: for every object whose element type
resolves to a supported kind and on which the extent query `GetInfoSelection` of the
engine returns, the output is allocated when the dimension count is 1, 2 or 3 (and the
read goes on with it), and for every other dimension count the read fails with the
unsupported-rank error without having issued a bulk read. -/
theorem C10_rank_limit (Obj : CdAbstractArray) (Start Length : Option TArrayDim)
    (Selection : Option TSelection) (SV : Int) (dt : jl_datatype_t) (V : TArrayDim)
    (hdt : (resolveType Obj SV).dat_type = some dt)
    (hV : Obj.GetInfoSelection (Start.getD (fun _ => 0)) (Length.getD Obj.GetDim) Selection
      = .ok V) :
    ((Obj.DimCnt = 1 ∨ Obj.DimCnt = 2 ∨ Obj.DimCnt = 3) →
      ∃ rv_ans : jl_array_t,
        allocOutput dt Obj.DimCnt (reverseDims Obj.DimCnt V) = .ok rv_ans ∧
        GDS_JArray_Read_try Obj Start Length Selection SV =
          readInto Obj (Start.getD (fun _ => 0)) (Length.getD Obj.GetDim) Selection
            (resolveType Obj SV) rv_ans) ∧
    (¬ (Obj.DimCnt = 1 ∨ Obj.DimCnt = 2 ∨ Obj.DimCnt = 3) →
      GDS_JArray_Read Obj Start Length Selection SV =
        { bulkReads := [], result := .error (Err.ErrGDSFmt ERR_3_DIMS) }) := by
  have htry := GDS_JArray_Read_try_alloc Obj Start Length Selection SV dt V hdt hV
  constructor
  · intro hn
    have hok : ∃ rv_ans, allocOutput dt Obj.DimCnt (reverseDims Obj.DimCnt V) = .ok rv_ans := by
      unfold allocOutput
      rcases hn with h | h | h <;> rw [h] <;> simp
    obtain ⟨rv_ans, halloc⟩ := hok
    refine ⟨rv_ans, halloc, ?_⟩
    rw [htry, halloc]
  · intro hn
    have h1 : Obj.DimCnt ≠ 1 := fun h => hn (Or.inl h)
    have h2 : Obj.DimCnt ≠ 2 := fun h => hn (Or.inr (Or.inl h))
    have h3 : Obj.DimCnt ≠ 3 := fun h => hn (Or.inr (Or.inr h))
    have halloc : allocOutput dt Obj.DimCnt (reverseDims Obj.DimCnt V)
        = .error (Err.ErrGDSFmt ERR_3_DIMS) := by
      unfold allocOutput
      rw [if_neg h1, if_neg h2, if_neg h3]
    rw [halloc] at htry
    unfold GDS_JArray_Read
    rw [htry]

/-- C10 amended, on an object of rank 2 and on one of rank 4, the extent query returning
on both. -/
theorem C10_rank_limit_witness :
    (∃ rv_ans : jl_array_t,
      allocOutput jl_int16_type exMatrixObj.DimCnt
          (reverseDims exMatrixObj.DimCnt (fun i => if i = 0 then 2 else 3)) = .ok rv_ans ∧
      GDS_JArray_Read_try exMatrixObj none none none svInt16 =
        readInto exMatrixObj ((none : Option TArrayDim).getD (fun _ => 0))
          ((none : Option TArrayDim).getD exMatrixObj.GetDim) none
          (resolveType exMatrixObj svInt16) rv_ans) ∧
    GDS_JArray_Read exRank4Obj none none none svInt16 =
      { bulkReads := [], result := .error (Err.ErrGDSFmt ERR_3_DIMS) } :=
  ⟨(C10_rank_limit exMatrixObj none none none svInt16 jl_int16_type
      (fun i => if i = 0 then 2 else 3) rfl rfl).1 (Or.inr (Or.inl rfl)),
   (C10_rank_limit exRank4Obj none none none svInt16 jl_int16_type
      (fun i => if i = 0 then 2 else 3) rfl rfl).2 (by decide)⟩

/-! ## C11: the buffer test of `GDS_Array_GetDim` -/

/-- What `GDS_Array_GetDim` does, for every `N_Buf`: it fails with the insufficient-buffer
error exactly when the dimension count exceeds `N_Buf` converted to `int`, and otherwise
returns the buffer with the extents written. -/
theorem GDS_Array_GetDim_cases (Obj : CdAbstractArray) (OutBuffer : TArrayDim) (N_Buf : Nat) :
    (toInt32 (N_Buf : Int) < Obj.DimCnt →
      GDS_Array_GetDim Obj OutBuffer N_Buf = .error (Err.ErrCoreArray ERR_INSUFFICIENT_BUFFER)) ∧
    (¬ toInt32 (N_Buf : Int) < Obj.DimCnt →
      GDS_Array_GetDim Obj OutBuffer N_Buf = .ok (Obj.GetDimInto OutBuffer)) := by
  unfold GDS_Array_GetDim
  constructor
  · intro h
    rw [if_pos h]
  · intro h
    rw [if_neg h]

/-- For a buffer size up to `2^31 - 1` the test of `GDS_Array_GetDim` is the intended one:
the call fails with the insufficient-buffer error exactly when the buffer size is smaller
than the dimension count, and otherwise the extents are written. -/
theorem GDS_Array_GetDim_small (Obj : CdAbstractArray) (OutBuffer : TArrayDim) (N_Buf : Nat)
    (h : N_Buf ≤ 2147483647) :
    (GDS_Array_GetDim Obj OutBuffer N_Buf = .error (Err.ErrCoreArray ERR_INSUFFICIENT_BUFFER)
      ↔ (N_Buf : Int) < Obj.DimCnt) ∧
    (¬ (N_Buf : Int) < Obj.DimCnt →
      GDS_Array_GetDim Obj OutBuffer N_Buf = .ok (Obj.GetDimInto OutBuffer)) := by
  have e : toInt32 (N_Buf : Int) = (N_Buf : Int) := toInt32_of_lt _ (by omega) (by omega)
  clear h
  obtain ⟨h1, h2⟩ := GDS_Array_GetDim_cases Obj OutBuffer N_Buf
  rw [e] at h1 h2
  refine ⟨⟨?_, h1⟩, h2⟩
  intro herr
  by_contra hge
  rw [h2 hge] at herr
  exact Except.noConfusion herr

/-- C11, at buffer sizes above `2^31 - 1`. The object has 2 dimensions. With
`N_Buf = 2^31` the conversion `(int)N_Buf` is `-2^31`, and with `N_Buf = 2^64 - 1` it is
`-1`; both buffer sizes are far above the dimension count, yet the call fails with the
insufficient-buffer error both times. With `N_Buf = 2` the extents are written. -/
theorem C11_large_buffer_rejected :
    exMatrixObj.DimCnt = 2 ∧
    toInt32 ((2147483648 : Nat) : Int) = -2147483648 ∧
    ¬ ((2147483648 : Nat) : Int) < exMatrixObj.DimCnt ∧
    GDS_Array_GetDim exMatrixObj (fun _ => 0) 2147483648
      = .error (Err.ErrCoreArray ERR_INSUFFICIENT_BUFFER) ∧
    toInt32 ((18446744073709551615 : Nat) : Int) = -1 ∧
    ¬ ((18446744073709551615 : Nat) : Int) < exMatrixObj.DimCnt ∧
    GDS_Array_GetDim exMatrixObj (fun _ => 0) 18446744073709551615
      = .error (Err.ErrCoreArray ERR_INSUFFICIENT_BUFFER) ∧
    GDS_Array_GetDim exMatrixObj (fun _ => 0) 2
      = .ok (exMatrixObj.GetDimInto (fun _ => 0)) :=
  ⟨rfl, by decide, by decide, rfl, by decide, by decide, rfl, rfl⟩

/-! ## C12: the bounds of the two loops of `GDS_Node_Delete` -/

theorem marked_lt_length (Node : CdGDSObj) (objs : List PdGDSObj) (j : Nat)
    (h : marked Node objs j = true) : j < objs.length := by
  obtain ⟨p, hp, _⟩ := (marked_iff Node objs j).1 h
  by_contra hge
  rw [List.getElem?_eq_none (by omega)] at hp
  exact Option.noConfusion hp

/-- The stores of the pre-scan of a folder: one for each list position that holds an
object below the folder, each into an array of `PKG_GDSObj_Map.size()` flags. -/
theorem preScan_stores (st : PkgState) (Node : CdGDSObj) (hfolder : Node.isAbsFolder = true) :
    (preScan st Node).stores =
      ((List.range st.PKG_GDSObj_List.length).filter (marked Node st.PKG_GDSObj_List)).map
        (fun i => (i, st.PKG_GDSObj_Map.size)) := by
  unfold preScan
  rw [if_pos hfolder]
  exact (preScan_loop Node st.PKG_GDSObj_List st.PKG_GDSObj_Map.size
    st.PKG_GDSObj_List.length).2.2

/-- When the marking array is as long as the tracked list, every store of the pre-scan
falls inside it. -/
theorem preScan_stores_in_range (st : PkgState) (Node : CdGDSObj)
    (hcover : st.PKG_GDSObj_List.length ≤ st.PKG_GDSObj_Map.size) :
    ∀ s ∈ (preScan st Node).stores, s.1 < s.2 := by
  intro s hs
  by_cases hfolder : Node.isAbsFolder = true
  · rw [preScan_stores st Node hfolder, List.mem_map] at hs
    obtain ⟨i, hi, he⟩ := hs
    rw [List.mem_filter, List.mem_range] at hi
    rw [← he]
    show i < st.PKG_GDSObj_Map.size
    omega
  · unfold preScan at hs
    rw [if_neg hfolder] at hs
    exact absurd hs (List.not_mem_nil _)

/-- When the marking array is as long as the tracked list, a run of `GDS_Node_Delete` has
defined behaviour. -/
theorem GDS_Node_Delete_defined_of_cover (st : PkgState) (node : CdGDSObj) (Force : Int)
    (hcover : st.PKG_GDSObj_List.length ≤ st.PKG_GDSObj_Map.size) :
    (GDS_Node_Delete st (some node) Force).undefinedBehaviour = false :=
  (GDS_Node_Delete_failure_atomic st node Force (preScan_stores_in_range st node hcover)).1

/-- The forced deletion on the registry with one tombstone is a run with a store outside
the marking array. -/
theorem GDS_Node_Delete_exTombstoned_undefinedBehaviour :
    (GDS_Node_Delete exTombstoned (some exFolder) 1).undefinedBehaviour = true := by
  decide

/-- The accesses of the final loop, from any registry and any marking array whose flags
are set only at positions inside the list: each one is inside the list. -/
theorem postLoop_reads_in_range (DeleteArray : List Bool) (l : List PdGDSObj) (mp : TObjMap)
    (hflag : ∀ i, DeleteArray.getD i false = true → i < l.length) :
    ∀ r ∈ (if (!DeleteArray.isEmpty) = true then
            forLoop DeleteArray.length (postStep DeleteArray)
              { objs := l, map := mp, reads := [] }
          else ({ objs := l, map := mp, reads := [] } : PostLoop)).reads,
      r.1 < r.2 ∧ r.2 = l.length := by
  intro r hr
  by_cases he : (!DeleteArray.isEmpty) = true
  · rw [if_pos he, (postLoop_spec DeleteArray l mp DeleteArray.length).2.2.2,
      List.mem_map] at hr
    obtain ⟨i, hi, hri⟩ := hr
    rw [List.mem_filter] at hi
    rw [← hri]
    exact ⟨hflag i hi.2, rfl⟩
  · rw [if_neg he] at hr
    exact absurd hr (List.not_mem_nil _)

/-- The flags of the pre-scan are set only at positions inside the tracked list. -/
theorem preScan_flag_lt_length (st : PkgState) (Node : CdGDSObj) (i : Nat)
    (h : (preScan st Node).DeleteArray.getD i false = true) :
    i < st.PKG_GDSObj_List.length := by
  by_cases hfolder : Node.isAbsFolder = true
  · rw [(preScan_getD st Node hfolder i).2, Bool.and_eq_true] at h
    exact marked_lt_length Node st.PKG_GDSObj_List i h.2
  · unfold preScan at h
    rw [if_neg hfolder] at h
    exact Bool.noConfusion h

/-- Every access `PKG_GDSObj_List[idx]` of the final loop of `GDS_Node_Delete` is inside
the tracked list, for every state, node and `Force`. -/
theorem GDS_Node_Delete_reads_in_range (st : PkgState) (Node : PdGDSObj) (Force : Int) :
    ∀ r ∈ (GDS_Node_Delete st Node Force).reads,
      r.1 < r.2 ∧ r.2 = st.PKG_GDSObj_List.length := by
  intro r hr
  cases Node with
  | none => exact absurd hr (List.not_mem_nil _)
  | some node =>
    unfold GDS_Node_Delete at hr
    simp only at hr
    split at hr
    · exact absurd hr (List.not_mem_nil _)
    · have h := postLoop_reads_in_range (preScan st node).DeleteArray
        (st.PKG_GDSObj_List.map (fun p => if p = some node then none else p))
        (st.PKG_GDSObj_Map.erase (some node))
        (by
          intro i hi
          rw [List.length_map]
          exact preScan_flag_lt_length st node i hi)
        r hr
      rw [List.length_map] at h
      exact h

/-- C12, at a registry that satisfies the invariant and has a tombstone in front of a
descendant. The map has 2 keys, the two live entries of the 3-slot list, so the marking
array has 2 flags; the pre-scan of `exFolder` finds its child at list position 2 and
stores at index 2 of the marking array, which is outside it. -/
theorem C12_prescan_store_out_of_range :
    mapKeysAreLiveEntries exTombstoned ∧
    exTombstoned.PKG_GDSObj_List.length = 3 ∧
    (preScan exTombstoned exFolder).DeleteArray.length = 2 ∧
    (GDS_Node_Delete exTombstoned (some exFolder) 1).stores = [(2, 2)] ∧
    ¬ (∀ s ∈ (GDS_Node_Delete exTombstoned (some exFolder) 1).stores, s.1 < s.2) := by
  refine ⟨by decide, rfl, by decide, by decide, ?_⟩
  intro h
  have h2 := h (2, 2) (by decide)
  exact absurd h2 (by decide)

end JuGDS
